import Mathlib

/-!
Ejecta-X asynchronous HTTP client.

A shallow embedding of `sources/ejecta/EJUtils/EJBindingHttpRequest.cpp`:
the byte sink `writeData`, the libcurl wrappers (`CURLRaii::perform`,
`processGetTask` ...), the worker thread `networkThread`, and the client
facade `EJHttpClient` (`lazyInitThreadSemphore`, `send`,
`dispatchResponseCallbacks`, the destructor).

The file-level statics of the C++ file (`s_asyncRequestCount`, `need_quit`,
`s_requestQueue`, `s_responseQueue`, `s_errorBuffer`, `s_networkThread`)
become the fields of `ClientState`.  A null pointer is `none`; calling a
method through a null pointer is a fault, and a faulting operation returns
`none`.  libcurl is outside the repository: what one transfer does is given
by a `CurlRun` value, over which every theorem quantifies.

The scripting object `EJBindingHttpRequest` (its `open`, `send`, completion
handler and getters) is embedded on top of the client: a `World` holds the
statics, the singleton pointer `s_pHttpClient`, one binding object and the
events triggered on it.

`s_asyncRequestCount` is an `unsigned long`.  Its width `w` in bits (32
under `_WINDOWS`, 64 on LP64 targets) is a parameter of the operations that
do arithmetic on it; the arithmetic is modulo `2 ^ w`.  `w` is also the
width of `long`, which decides whether the `long` that `curl_easy_getinfo`
stores fits the `int32_t` it is given.

The lock discipline is embedded apart from the state transformers: every
function that touches the shared statics is also given as the sequence of
its lock, unlock, wait, read and write operations (`SyncOp`), in program
order and with source lines, from which the mutexes held at each access are
computed.
-/

namespace Ejecta

/-- One `char` of a receive buffer. -/
abbrev Byte := Fin 256

/-- The request kinds switched on by `networkThread` and assigned by the
binding-level `send` (`EJHttpRequest::kHttpGet` ... `kHttpUnkown`). -/
inductive HttpRequestType where
  | kHttpGet
  | kHttpPost
  | kHttpPut
  | kHttpDelete
  | kHttpUnkown
  deriving DecidableEq, Repr

/-- A completion selector (`SEL_HttpResponse`): the member function that
`dispatchResponseCallbacks` calls on the target.  The only selector the
repository registers is `EJBindingHttpRequest::onHttpRequestCompleted`. -/
inductive SEL_HttpResponse where
  | onHttpRequestCompleted
  | other (id : Nat)
  deriving DecidableEq, Repr

/-- Modelled from the spec: the class `EJHttpRequest` is declared in
`EJBindingHttpRequest.h`, which is not among the sources.  The fields are
those of the spec's Request (section 3) that the `.cpp` reads through
`getRequestType`, `getUrl`, `getRequestData`, `getTag`, `getHeaders`,
`getTarget` and `getSelector`.  `addr` is the identity of the heap object:
two request objects are the same object exactly when their `addr` agree.
`target` and `selector` are pointers; `none` is `NULL`. -/
structure EJHttpRequest where
  addr : Nat
  requestType : HttpRequestType
  url : String
  requestData : List Byte
  tag : String
  headers : List String
  target : Option Nat
  selector : Option SEL_HttpResponse
  deriving DecidableEq, Repr

/-- Modelled from the spec: the class `EJHttpResponse` is declared in
`EJBindingHttpRequest.h`, which is not among the sources.  The fields are
those of the spec's Response (section 3): `succeed` (`isSucceed`),
`responseCode`, `responseData`, `errorBuffer` and the retained owning
request (`getHttpRequest`). -/
structure EJHttpResponse where
  request : EJHttpRequest
  succeed : Bool
  responseData : List Byte
  responseCode : Int
  errorBuffer : String
  deriving DecidableEq, Repr

/-- Modelled from the spec: the constructor `EJHttpResponse(request)`.  Line 87
of the `.cpp`: "the default setting is http access failed"; the body and the
error text start empty and the status code is -1 (spec: "-1 if no code
obtained"; `networkThread` overwrites it by `setResponseCode` in any case). -/
def EJHttpResponse.new (request : EJHttpRequest) : EJHttpResponse :=
  { request := request, succeed := false, responseData := [], responseCode := -1,
    errorBuffer := "" }

/-- Byte sink `writeData(ptr, size, nmemb, stream)` (lines 33-43): appends the
`size * nmemb` bytes at `ptr` to the receive buffer `stream` and returns
`size * nmemb`.  `ptr` is the memory starting at the pointer.  libcurl hands
over a buffer of `size * nmemb` bytes, so the product is the size of an
object in memory and is taken without wrap-around. -/
def writeData (ptr : List Byte) (size nmemb : Nat) (stream : List Byte) : List Byte × Nat :=
  let sizes := size * nmemb
  (stream ++ ptr.take sizes, sizes)

/-- One invocation of the write callback by libcurl. -/
structure WriteCall where
  ptr : List Byte
  size : Nat
  nmemb : Nat
  deriving DecidableEq, Repr

/-- What libcurl does during one `process...Task` call; libcurl is not part of
the repository, so this is an input of the model.
* `setupOk`: `curl.init(...)` and every `setOption` before `perform` returned true;
* `timeoutsRead`: `configureCURL` got as far as reading the timeouts of the
  client (lines 193 and 197), which it does through `EJHttpClient::getInstance()`;
  this is the case whenever the set-up succeeded, and it may be the case when
  a later step of the set-up failed;
* `writes`: the calls of the write callback made by `curl_easy_perform`, in order;
* `performOk`: `curl_easy_perform` returned `CURLE_OK`;
* `getinfoOk`: `curl_easy_getinfo(CURLINFO_RESPONSE_CODE)` returned `CURLE_OK`;
* `infoCode`: the value `curl_easy_getinfo` stores through `responseCode`, if it stores one;
* `errorText`: the text `curl_easy_perform` leaves in the `CURLOPT_ERRORBUFFER`
  buffer (`s_errorBuffer`), if it writes one. -/
structure CurlRun where
  setupOk : Bool
  timeoutsRead : Bool
  writes : List WriteCall
  performOk : Bool
  getinfoOk : Bool
  infoCode : Option Int
  errorText : Option String
  deriving DecidableEq, Repr

/-- The receive buffer after libcurl has made the given write-callback calls. -/
def deliver (writes : List WriteCall) (stream : List Byte) : List Byte :=
  writes.foldl (fun acc c => (writeData c.ptr c.size c.nmemb acc).1) stream

/-- What a `process...Task` call leaves behind: its return value, the receive
buffer, the value of `*responseCode`, and `s_errorBuffer`. -/
structure TaskResult where
  retValue : Int
  stream : List Byte
  responseCode : Int
  errorBuffer : String
  deriving DecidableEq, Repr

/-- Method `CURLRaii::perform(responseCode)` (lines 264-272): false when
`curl_easy_perform` fails (then `*responseCode` is untouched); otherwise reads
the response code and is true only when `curl_easy_getinfo` succeeded and the
code is 200.  Returns the result, the receive buffer, `*responseCode` and
`s_errorBuffer`.

`responseCode` is an `int*` that points to the `int32_t responseCode` of
`networkThread` (line 94), and `curl_easy_getinfo(CURLINFO_RESPONSE_CODE)`
stores a `long` through it.  Where `long` is wider than 32 bits (`32 < w`)
the store overruns the variable on the stack of the worker: a fault (`none`).
Where `long` has at most 32 bits the store is an assignment. -/
def CURLRaii.perform (w : Nat) (run : CurlRun) (stream : List Byte) (responseCode : Int)
    (errorBuffer : String) : Option (Bool × List Byte × Int × String) :=
  let stream1 := deliver run.writes stream
  let errorBuffer1 := run.errorText.getD errorBuffer
  if run.performOk = false then
    some (false, stream1, responseCode, errorBuffer1)
  else
    match run.infoCode with
    | some code =>
      if 32 < w then
        none
      else if run.getinfoOk = false ∨ code ≠ 200 then
        some (false, stream1, code, errorBuffer1)
      else
        some (true, stream1, code, errorBuffer1)
    | none =>
      if run.getinfoOk = false ∨ responseCode ≠ 200 then
        some (false, stream1, responseCode, errorBuffer1)
      else
        some (true, stream1, responseCode, errorBuffer1)

/-- The common shape of the four `process...Task` functions (lines 276-318):
`ok = curl.init(...) && curl.setOption(...) ... && curl.perform(responseCode);
return ok ? 0 : 1;`.  The `&&` chain stops at the first false, so `perform`
runs only when the set-up succeeded.  A fault in `perform` is a fault of the
task. -/
def processTask (w : Nat) (run : CurlRun) (stream : List Byte) (responseCode : Int)
    (errorBuffer : String) : Option TaskResult :=
  if run.setupOk then
    match CURLRaii.perform w run stream responseCode errorBuffer with
    | none => none
    | some p =>
      some { retValue := if p.1 then 0 else 1, stream := p.2.1, responseCode := p.2.2.1,
             errorBuffer := p.2.2.2 }
  else
    some { retValue := 1, stream := stream, responseCode := responseCode,
           errorBuffer := errorBuffer }

/-- Function `processGetTask` (lines 276-283). -/
def processGetTask (w : Nat) (run : CurlRun) (stream : List Byte) (responseCode : Int)
    (errorBuffer : String) : Option TaskResult :=
  processTask w run stream responseCode errorBuffer

/-- Function `processPostTask` (lines 286-295). -/
def processPostTask (w : Nat) (run : CurlRun) (stream : List Byte) (responseCode : Int)
    (errorBuffer : String) : Option TaskResult :=
  processTask w run stream responseCode errorBuffer

/-- Function `processPutTask` (lines 298-307). -/
def processPutTask (w : Nat) (run : CurlRun) (stream : List Byte) (responseCode : Int)
    (errorBuffer : String) : Option TaskResult :=
  processTask w run stream responseCode errorBuffer

/-- Function `processDeleteTask` (lines 310-318). -/
def processDeleteTask (w : Nat) (run : CurlRun) (stream : List Byte) (responseCode : Int)
    (errorBuffer : String) : Option TaskResult :=
  processTask w run stream responseCode errorBuffer

/-- Where the worker thread stands.
* `absent`: there is no worker thread (never created, or it reached `pthread_exit`);
* `loopHead`: at the top of `while (true)` (line 59), before the test of
  `need_quit` (line 61);
* `dequeuing`: the test of `need_quit` found it clear; the worker is about to
  lock the pending queue and look for a request (lines 66-76);
* `transferring request`: `request` has been taken off `s_requestQueue`
  (line 78 passed) and its response is not yet on `s_responseQueue`. -/
inductive WorkerPc where
  | absent
  | loopHead
  | dequeuing
  | transferring (request : EJHttpRequest)
  deriving DecidableEq, Repr

/-- The file-level statics of `EJBindingHttpRequest.cpp`. -/
structure ClientState where
  s_asyncRequestCount : Nat
  need_quit : Bool
  s_requestQueue : Option (List EJHttpRequest)
  s_responseQueue : Option (List EJHttpResponse)
  s_errorBuffer : String
  s_networkThread : WorkerPc
  deriving DecidableEq, Repr

/-- The statics as initialised at program start (lines 15-28). -/
def ClientState.initial : ClientState :=
  { s_asyncRequestCount := 0, need_quit := false, s_requestQueue := none,
    s_responseQueue := none, s_errorBuffer := "", s_networkThread := WorkerPc.absent }

/-- The requests on the pending queue (none when the queue does not exist). -/
def ClientState.pending (s : ClientState) : List EJHttpRequest :=
  s.s_requestQueue.getD []

/-- The responses on the completion queue (none when the queue does not exist). -/
def ClientState.completed (s : ClientState) : List EJHttpResponse :=
  s.s_responseQueue.getD []

/-- Subtraction on `unsigned long` of width `w`. -/
def subULong (w a b : Nat) : Nat :=
  (a + (2 ^ w - b % 2 ^ w)) % 2 ^ w

/-- Something observable that an operation does besides changing the statics.
* `transfer request`: a `process...Task` call was made for `request`;
* `callback target selector response`: `(pTarget->*pSelector)(this, response)`. -/
inductive Event where
  | transfer (request : EJHttpRequest)
  | callback (target : Nat) (selector : SEL_HttpResponse) (response : EJHttpResponse)
  deriving DecidableEq, Repr

/-- Steps 2 and 3 of the worker loop for a dequeued `request` (lines 85-144):
build the response, run the task selected by the request type, store the
response code, and set the success flag from `retValue`.  The `default:` arm
is `NSAssert(true, ...)`, whose condition holds, so it does nothing and
`retValue` keeps its initial 0.  Returns the response, `s_errorBuffer` and
the events; `none` when the task faults. -/
def networkThread.process (w : Nat) (run : CurlRun) (request : EJHttpRequest)
    (errorBuffer : String) : Option (EJHttpResponse × String × List Event) :=
  let response := EJHttpResponse.new request
  let responseCode : Int := -1
  let retValue : Int := 0
  let r : Option (TaskResult × List Event) :=
    match request.requestType with
    | HttpRequestType.kHttpGet =>
      (processGetTask w run response.responseData responseCode errorBuffer).map
        (fun t => (t, [Event.transfer request]))
    | HttpRequestType.kHttpPost =>
      (processPostTask w run response.responseData responseCode errorBuffer).map
        (fun t => (t, [Event.transfer request]))
    | HttpRequestType.kHttpPut =>
      (processPutTask w run response.responseData responseCode errorBuffer).map
        (fun t => (t, [Event.transfer request]))
    | HttpRequestType.kHttpDelete =>
      (processDeleteTask w run response.responseData responseCode errorBuffer).map
        (fun t => (t, [Event.transfer request]))
    | HttpRequestType.kHttpUnkown =>
      some ({ retValue := retValue, stream := response.responseData,
              responseCode := responseCode, errorBuffer := errorBuffer }, [])
  match r with
  | none => none
  | some r =>
    let response1 :=
      { response with responseData := r.1.stream, responseCode := r.1.responseCode }
    let response2 :=
      if r.1.retValue ≠ 0 then
        { response1 with succeed := false, errorBuffer := r.1.errorBuffer }
      else
        { response1 with succeed := true }
    some (response2, r.1.errorBuffer, r.2)

/-- One step of the worker thread `networkThread` (lines 55-179), with `run`
what libcurl does if this step makes a transfer.
* No thread: nothing happens.
* At the loop head with `need_quit` set: leave the loop and clean up (lines
  156-176): `removeAllObjects`, `s_asyncRequestCount -= s_requestQueue->count()`
  (the count of the queue just emptied), release both queues, set both
  pointers to `NULL`, exit.
* At the loop head with `need_quit` clear: go on to the dequeue.  The test is
  made without a lock and is a step of its own, so a `send` or a shutdown
  request can come between it and the dequeue.
* At the dequeue: under the lock take the first pending request, or, when
  there is none, wait on the condition variable and go back to the loop head.
* Holding a dequeued request: transfer it and append the response to
  `s_responseQueue`.
A call through a null queue pointer is a fault (`none`), and so is a fault of
the transfer. -/
def networkThread (w : Nat) (run : CurlRun) (s : ClientState) :
    Option (ClientState × List Event) :=
  match s.s_networkThread with
  | WorkerPc.absent => some (s, [])
  | WorkerPc.loopHead =>
    if s.need_quit then
      match s.s_requestQueue, s.s_responseQueue with
      | some _, some _ =>
        let emptied : List EJHttpRequest := []
        some ({ s with
                  s_asyncRequestCount := subULong w s.s_asyncRequestCount emptied.length,
                  s_requestQueue := none,
                  s_responseQueue := none,
                  s_networkThread := WorkerPc.absent }, [])
      | _, _ => none
    else
      some ({ s with s_networkThread := WorkerPc.dequeuing }, [])
  | WorkerPc.dequeuing =>
    match s.s_requestQueue with
    | none => none
    | some [] => some ({ s with s_networkThread := WorkerPc.loopHead }, [])
    | some (request :: rest) =>
      some ({ s with s_requestQueue := some rest,
                     s_networkThread := WorkerPc.transferring request }, [])
  | WorkerPc.transferring request =>
    match networkThread.process w run request s.s_errorBuffer with
    | none => none
    | some p =>
      match s.s_responseQueue with
      | none => none
      | some q =>
        some ({ s with s_responseQueue := some (q ++ [p.1]),
                       s_errorBuffer := p.2.1,
                       s_networkThread := WorkerPc.loopHead }, p.2.2)

/-- Lets the worker go on, for at most `fuel` steps, while it is inside the
loop body (at the dequeue or holding a request). -/
def networkThread.finish (w : Nat) (run : CurlRun) :
    Nat → ClientState × List Event → Option (ClientState × List Event)
  | 0, p => some p
  | fuel + 1, (s, evs) =>
    match s.s_networkThread with
    | WorkerPc.absent => some (s, evs)
    | WorkerPc.loopHead => some (s, evs)
    | _ =>
      match networkThread w run s with
      | none => none
      | some (s1, evs1) => networkThread.finish w run fuel (s1, evs ++ evs1)

/-- One pass of the worker through its loop body, from the loop head back to
the loop head: the test of `need_quit`, the dequeue and, when a request was
dequeued, its transfer. -/
def networkThread.iteration (w : Nat) (run : CurlRun) (s : ClientState) :
    Option (ClientState × List Event) :=
  match networkThread w run s with
  | none => none
  | some p => networkThread.finish w run 2 p

/-- Destructor `EJHttpClient::~EJHttpClient` (lines 341-350): the shutdown
request.  Sets `need_quit` and signals the condition variable. -/
def EJHttpClient.destructor (s : ClientState) : ClientState :=
  { s with need_quit := true }

/-- Method `EJHttpClient::lazyInitThreadSemphore` (lines 353-378): when
`s_requestQueue` is `NULL`, creates both queues, starts the worker thread and
clears `need_quit`; always returns true. -/
def EJHttpClient.lazyInitThreadSemphore (s : ClientState) : Bool × ClientState :=
  match s.s_requestQueue with
  | some _ => (true, s)
  | none =>
    (true, { s with s_requestQueue := some [],
                    s_responseQueue := some [],
                    s_networkThread := WorkerPc.loopHead,
                    need_quit := false })

/-- Method `EJHttpClient::send` (lines 381-403); `request = none` is a null
pointer.  `++s_asyncRequestCount` is on an `unsigned long` of `w` bits. -/
def EJHttpClient.send (w : Nat) (s : ClientState) (request : Option EJHttpRequest) :
    Option ClientState :=
  let i := EJHttpClient.lazyInitThreadSemphore s
  if i.1 = false then
    some i.2
  else
    match request with
    | none => some i.2
    | some r =>
      let s1 := { i.2 with s_asyncRequestCount := (i.2.s_asyncRequestCount + 1) % 2 ^ w }
      match s1.s_requestQueue with
      | none => none
      | some q => some { s1 with s_requestQueue := some (q ++ [r]) }

/-- Method `EJHttpClient::dispatchResponseCallbacks` (lines 406-442), the
per-frame poll (the spec's `pollCompletions`); the unused `delta` is left out.
`s_responseQueue->count()` through a null pointer is a fault (`none`). -/
def EJHttpClient.dispatchResponseCallbacks (s : ClientState) :
    Option (ClientState × List Event) :=
  if s.s_asyncRequestCount = 0 then
    some (s, [])
  else
    match s.s_responseQueue with
    | none => none
    | some [] => some (s, [])
    | some (response :: rest) =>
      let s1 := { s with s_responseQueue := some rest,
                         s_asyncRequestCount := s.s_asyncRequestCount - 1 }
      match response.request.target, response.request.selector with
      | some pTarget, some pSelector =>
        some (s1, [Event.callback pTarget pSelector response])
      | _, _ => some (s1, [])

/-- The freshly initialised client: the statics right after the first
`lazyInitThreadSemphore`. -/
def ClientState.fresh : ClientState :=
  (EJHttpClient.lazyInitThreadSemphore ClientState.initial).2

/-- A step of an execution of the client: a `send` by the producer, a step of
the worker thread, a poll, or a shutdown request. -/
inductive Action where
  | send (request : Option EJHttpRequest)
  | worker (run : CurlRun)
  | poll
  | shutdown
  deriving DecidableEq, Repr

/-- The effect of one action; `none` when the action faults. -/
def step (w : Nat) (a : Action) (s : ClientState) : Option (ClientState × List Event) :=
  match a with
  | Action.send request => (EJHttpClient.send w s request).map (fun s1 => (s1, []))
  | Action.worker run => networkThread w run s
  | Action.poll => EJHttpClient.dispatchResponseCallbacks s
  | Action.shutdown => some (EJHttpClient.destructor s, [])

/-- Runs the actions in order from `s`.  Returns the events of the execution
and the final statics; an action that faults ends the execution (the process
is gone), which leaves `none` for the statics. -/
def exec (w : Nat) : List Action → ClientState → List Event × Option ClientState
  | [], s => ([], some s)
  | a :: rest, s =>
    match step w a s with
    | none => ([], none)
    | some (s1, evs) =>
      let r := exec w rest s1
      (evs ++ r.1, r.2)

/-- Calls `send` for each request in order. -/
def sendAll (w : Nat) : ClientState → List EJHttpRequest → Option ClientState
  | s, [] => some s
  | s, r :: rest =>
    match EJHttpClient.send w s (some r) with
    | none => none
    | some s1 => sendAll w s1 rest

/-- Lets the worker make one loop iteration per element of `runs`. -/
def iterations (w : Nat) : ClientState → List CurlRun → Option (ClientState × List Event)
  | s, [] => some (s, [])
  | s, run :: rest =>
    match networkThread.iteration w run s with
    | none => none
    | some (s1, evs1) =>
      match iterations w s1 rest with
      | none => none
      | some (s2, evs2) => some (s2, evs1 ++ evs2)

/-- The object identities of the requests whose completion handler was invoked,
one entry per invocation, in order. -/
def callbackAddrs : List Event → List Nat
  | [] => []
  | Event.callback _ _ response :: rest => response.request.addr :: callbackAddrs rest
  | Event.transfer _ :: rest => callbackAddrs rest

/-- The object identities of the requests submitted by the `send` actions. -/
def sentAddrs : List Action → List Nat
  | [] => []
  | Action.send (some r) :: rest => r.addr :: sentAddrs rest
  | _ :: rest => sentAddrs rest

/-- The object identities of the requests the client holds: those of the queued
responses, the one in transfer, and the pending ones. -/
def ClientState.heldAddrs (s : ClientState) : List Nat :=
  s.completed.map (fun p => p.request.addr)
    ++ (match s.s_networkThread with
        | WorkerPc.transferring request => [request.addr]
        | _ => [])
    ++ s.pending.map (fun r => r.addr)


/-- A GET request with a completion handler registered. -/
def sampleRequest : EJHttpRequest :=
  { addr := 1, requestType := HttpRequestType.kHttpGet, url := "http://example.org/a",
    requestData := [], tag := "", headers := [], target := some 7,
    selector := some SEL_HttpResponse.onHttpRequestCompleted }

/-- A request on which `setResponseCallback` was never called: target and
selector are `NULL`. -/
def bareRequest : EJHttpRequest :=
  { addr := 2, requestType := HttpRequestType.kHttpGet, url := "http://example.org/b",
    requestData := [], tag := "", headers := [], target := none, selector := none }

/-- An initialised client whose counter holds the largest `unsigned long` of
`w` bits. -/
def counterAtMax (w : Nat) : ClientState :=
  { ClientState.fresh with s_asyncRequestCount := 2 ^ w - 1 }

/-- A successful response to `r` with an empty body. -/
def okResponse (r : EJHttpRequest) : EJHttpResponse :=
  { request := r, succeed := true, responseData := [], responseCode := 200, errorBuffer := "" }

/-- An initialised client with one outstanding request whose response is queued. -/
def oneCompleted (r : EJHttpRequest) : ClientState :=
  { ClientState.fresh with s_asyncRequestCount := 1, s_responseQueue := some [okResponse r] }

/-- A request whose method the binding could not map (for instance "HEAD"):
its type is `kHttpUnkown`. -/
def unknownRequest : EJHttpRequest :=
  { addr := 3, requestType := HttpRequestType.kHttpUnkown, url := "http://example.org/c",
    requestData := [], tag := "", headers := [], target := some 7,
    selector := some SEL_HttpResponse.onHttpRequestCompleted }

/-- A transfer that delivers the five bytes 1 2 3 4 5 in two chunks and ends
with status 200. -/
def okRun : CurlRun :=
  { setupOk := true, timeoutsRead := true, writes := [⟨[1, 2, 3], 1, 3⟩, ⟨[4, 5], 2, 1⟩],
    performOk := true,
    getinfoOk := true, infoCode := some 200, errorText := none }

/-- A transfer that fails in `curl_easy_perform` before any status is obtained. -/
def failedRun : CurlRun :=
  { setupOk := true, timeoutsRead := true, writes := [], performOk := false,
    getinfoOk := false, infoCode := none,
    errorText := some "Could not resolve host" }

/-- An initialised client whose worker holds the dequeued request `r`. -/
def inTransfer (r : EJHttpRequest) : ClientState :=
  { ClientState.fresh with s_asyncRequestCount := 1,
                           s_networkThread := WorkerPc.transferring r }

/-- An initialised client with the given requests pending, the stop flag set
and the worker at its loop head. -/
def stopping (q : List EJHttpRequest) : ClientState :=
  { ClientState.fresh with s_asyncRequestCount := q.length, s_requestQueue := some q,
                           need_quit := true }

/-- An execution with two submissions, worker steps and polls in between
(the first request is dequeued, its transfer fails, and its response is
delivered by a poll), then a shutdown, a worker step and a poll after it. -/
def sampleActions : List Action :=
  [Action.send (some sampleRequest), Action.send (some bareRequest), Action.worker okRun,
   Action.poll, Action.worker okRun, Action.poll, Action.poll, Action.worker failedRun,
   Action.worker failedRun, Action.poll, Action.shutdown, Action.worker okRun, Action.poll]

/-- The shape the statics have in every execution: the two queue pointers are
null together, a worker thread exists exactly while the queues do, and the
counter is a value of `unsigned long`. -/
def ClientState.WellFormed (w : Nat) (s : ClientState) : Prop :=
  (s.s_requestQueue = none ↔ s.s_responseQueue = none)
    ∧ (s.s_networkThread = WorkerPc.absent ↔ s.s_requestQueue = none)
    ∧ s.s_asyncRequestCount < 2 ^ w

/-- The number of requests the worker holds between dequeue and the queueing
of the response: 1 while a dequeued request is being transferred, else 0. -/
def ClientState.inFlight (s : ClientState) : Nat :=
  match s.s_networkThread with
  | WorkerPc.transferring _ => 1
  | _ => 0

/-- The number of requests submitted and not yet delivered: pending, in
transfer, or answered and waiting on the completion queue. -/
def ClientState.outstanding (s : ClientState) : Nat :=
  s.pending.length + s.completed.length + s.inFlight

/-- The invariant of an initialised client that is not shutting down: both
queues and the worker exist, the stop flag is clear, and the counter is the
number of outstanding requests as an `unsigned long` of `w` bits. -/
def ClientState.Counted (w : Nat) (s : ClientState) : Prop :=
  s.need_quit = false
    ∧ s.s_requestQueue ≠ none
    ∧ s.s_responseQueue ≠ none
    ∧ s.s_networkThread ≠ WorkerPc.absent
    ∧ s.s_asyncRequestCount = s.outstanding % 2 ^ w

/-- The statics after shutdown has completed: the worker has cleaned up and
exited, nothing was outstanding. -/
def afterShutdown : ClientState :=
  { ClientState.initial with need_quit := true }

/-- The ready states of the binding object, bound to the script constants
`UNSENT`, `OPENED`, `HEADERS_RECEIVED`, `LOADING` and `DONE` (lines 755-759). -/
inductive EJHttpRequestState where
  | kEJHttpRequestStateUnsent
  | kEJHttpRequestStateOpened
  | kEJHttpRequestStateHeadersReceived
  | kEJHttpRequestStateLoading
  | kEJHttpRequestStateDone
  deriving DecidableEq, Repr

/-- Modelled from the spec: a scripting value (`JSValueRef`), seen through the
two conversions the binding applies to its arguments, `JSValueToNSString` and
`JSValueToBoolean`; both belong to the scripting engine, an external
collaborator (spec section 1). -/
structure JSValue where
  toNSString : String
  toBoolean : Bool
  deriving DecidableEq, Repr

/-- Modelled from the spec: the class `EJBindingHttpRequest` is declared in
`EJBindingHttpRequest.h`, which is not among the sources.  The fields are the
members the `.cpp` reads and writes.  `self` is the address of the object
(`this`).  Pointer members are options, `none` being `NULL`; `connection`
points to the client singleton.  `responseBody` is a `char*`: the model keeps
the C string that starts at it. -/
structure EJBindingHttpRequest where
  self : Nat
  method : Option String
  url : Option String
  user : Option String
  password : Option String
  connection : Option Unit
  response : Option EJHttpResponse
  responseBody : Option (List Byte)
  requestHeaders : List (String × String)
  state : EJHttpRequestState
  async : Bool
  timeout : Int
  deriving DecidableEq, Repr

/-- Constructor `EJBindingHttpRequest::EJBindingHttpRequest` (lines 444-447):
every pointer member is `NULL` and the header table is empty.  The
constructor does not set `state`, `async` or `timeout`: they hold whatever
the memory of the new object held, given here by `state0`, `async0` and
`timeout0`. -/
def EJBindingHttpRequest.ctor (self : Nat) (state0 : EJHttpRequestState) (async0 : Bool)
    (timeout0 : Int) : EJBindingHttpRequest :=
  { self := self, method := none, url := none, user := none, password := none,
    connection := none, response := none, responseBody := none, requestHeaders := [],
    state := state0, async := async0, timeout := timeout0 }

/-- A constructed object whose three members that the constructor leaves
unset happen to hold UNSENT, true and 0. -/
def EJBindingHttpRequest.new (self : Nat) : EJBindingHttpRequest :=
  EJBindingHttpRequest.ctor self EJHttpRequestState.kEJHttpRequestStateUnsent true 0

/-- The C string that starts at the first byte of `bytes`: the bytes before the
first zero byte.  This is what `sprintf(dst, "%s", src)` copies and what
`NSStringMake(const char*)` reads. -/
def cString (bytes : List Byte) : List Byte :=
  bytes.takeWhile (fun c => decide (c ≠ 0))

/-- Method `EJBindingHttpRequest::clearConnection` (lines 458-463).  Returns the
object and whether `connection->release()` was called. -/
def EJBindingHttpRequest.clearConnection (x : EJBindingHttpRequest) :
    EJBindingHttpRequest × Bool :=
  ({ x with connection := none, responseBody := none, response := none },
    x.connection.isSome)

/-- Method `EJBindingHttpRequest::clearRequest` (lines 465-471). -/
def EJBindingHttpRequest.clearRequest (x : EJBindingHttpRequest) : EJBindingHttpRequest :=
  { x with method := none, url := none, user := none, password := none }

/-- Method `EJBindingHttpRequest::getStatusCode` (lines 473-484). -/
def EJBindingHttpRequest.getStatusCode (x : EJBindingHttpRequest) : Int :=
  match x.response with
  | none => 0
  | some response =>
    if response.responseCode ≠ 200 then response.responseCode else 200

/-- Method `EJBindingHttpRequest::getResponseText` (lines 486-499): `NULL` when
there is no response or no body, else the string made from the C string at
`responseBody`. -/
def EJBindingHttpRequest.getResponseText (x : EJBindingHttpRequest) : Option (List Byte) :=
  match x.response, x.responseBody with
  | some _, some body => some (cString body)
  | _, _ => none

/-- Method `EJBindingHttpRequest::onHttpRequestCompleted(sender, data)` (lines
501-551), the completion handler the binding registers.  Returns the object
and the events it triggers, in order.  On success the body is copied with
`sprintf(responseBody, "%s", buf.c_str())` into an array of `buffer->size()`
bytes: the bytes before the first zero byte are stored, followed by a
terminating zero (which lies one past the array when the body has no zero
byte; the model keeps the stored string and not the layout of the heap). -/
def EJBindingHttpRequest.onHttpRequestCompleted (x : EJBindingHttpRequest)
    (data : Option EJHttpResponse) : EJBindingHttpRequest × List String :=
  let x1 := { x with response := data }
  match data with
  | none => (x1, [])
  | some response =>
    let x2 := { x1 with state := EJHttpRequestState.kEJHttpRequestStateDone }
    if response.succeed = false then
      ({ x2 with responseBody := none }, ["loadend", "readystatechange"])
    else
      ({ x2 with responseBody := some (cString response.responseData) },
        ["loadend", "readystatechange"])

/-- Script function `open` (`EJ_BIND_FUNCTION(EJBindingHttpRequest, open, ...)`,
lines 553-571).  Returns the object and whether `connection->release()` was
called by `clearConnection`. -/
def EJBindingHttpRequest._func_open (x : EJBindingHttpRequest) (argv : List JSValue) :
    EJBindingHttpRequest × Bool :=
  match argv with
  | a0 :: a1 :: rest =>
    let c := x.clearConnection
    let x1 := c.1.clearRequest
    let x2 := { x1 with method := some a0.toNSString, url := some a1.toNSString,
                        async := (match rest with
                                  | a2 :: _ => a2.toBoolean
                                  | [] => true) }
    let x3 := match rest with
      | _ :: a3 :: a4 :: _ =>
        { x2 with user := some a3.toNSString, password := some a4.toNSString }
      | _ => x2
    ({ x3 with state := EJHttpRequestState.kEJHttpRequestStateOpened }, c.2)
  | _ => (x, false)

/-- Script getter `status` (line 732). -/
def EJBindingHttpRequest._get_status (x : EJBindingHttpRequest) : Int :=
  x.getStatusCode

/-- Script getter `responseText` (lines 727-730); `response` (lines 712-725)
returns the same value. -/
def EJBindingHttpRequest._get_responseText (x : EJBindingHttpRequest) : Option (List Byte) :=
  x.getResponseText

/-- Script getter `readyState` (line 708). -/
def EJBindingHttpRequest._get_readyState (x : EJBindingHttpRequest) : EJHttpRequestState :=
  x.state

/-- The program as seen from one binding object: the statics of the client, the
singleton pointer `s_pHttpClient` (`none` is `NULL`, `some n` a live
`EJHttpClient` with `n` references), the binding object, and the events
triggered on it so far (`EJBindingEventedBase::triggerEvent`), in order. -/
structure World where
  client : ClientState
  s_pHttpClient : Option Nat
  xhr : EJBindingHttpRequest
  fired : List String
  deriving DecidableEq, Repr

/-- Program start with the binding object `x`: the statics as initialised, no
client singleton, no event fired. -/
def World.start (x : EJBindingHttpRequest) : World :=
  { client := ClientState.initial, s_pHttpClient := none, xhr := x, fired := [] }

/-- Program start with the constructed object `EJBindingHttpRequest.new self`. -/
def World.initial (self : Nat) : World :=
  World.start (EJBindingHttpRequest.new self)

/-- Method `EJHttpClient::getInstance` (lines 320-327), on the singleton
pointer: a `NULL` pointer is replaced by a new instance, which has the one
reference of its creator. -/
def EJHttpClient.getInstance (p : Option Nat) : Option Nat :=
  match p with
  | none => some 1
  | some n => some n

/-- Modelled from the spec: `NSObject::release` on the client singleton.
`NSObject` is not among the sources; spec section 3: objects are shared by a
reference count and "the last releaser destroys it".  Dropping the last
reference runs `~EJHttpClient`, which sets `need_quit` and resets
`s_pHttpClient` to `NULL` (lines 341-350).  A release through a pointer to an
instance that no longer exists is a fault. -/
def EJHttpClient.release (c : ClientState) (p : Option Nat) :
    Option (ClientState × Option Nat) :=
  match p with
  | none => none
  | some n =>
    if n ≤ 1 then some (EJHttpClient.destructor c, none)
    else some (c, some (n - 1))

/-- The release of the client that `clearConnection` makes when it found
`connection` set. -/
def releaseIf (released : Bool) (c : ClientState) (p : Option Nat) :
    Option (ClientState × Option Nat) :=
  if released then EJHttpClient.release c p else some (c, p)

/-- Script function `open` applied to the object of the world, with the effect
of `clearConnection` on the client. -/
def World.callOpen (W : World) (argv : List JSValue) : Option World :=
  let r := W.xhr._func_open argv
  match releaseIf r.2 W.client W.s_pHttpClient with
  | none => none
  | some (c, p) => some { W with client := c, s_pHttpClient := p, xhr := r.1 }

/-- The request type the binding-level `send` derives from the method string
(lines 648-667). -/
def requestTypeOf (method : String) : HttpRequestType :=
  if method = "GET" then HttpRequestType.kHttpGet
  else if method = "POST" then HttpRequestType.kHttpPost
  else if method = "PUT" then HttpRequestType.kHttpPut
  else if method = "DELETE" then HttpRequestType.kHttpDelete
  else HttpRequestType.kHttpUnkown

/-- Script function `send` (`EJ_BIND_FUNCTION(EJBindingHttpRequest, send, ...)`,
lines 617-706); its arguments are not read.  `newAddr` is the address of the
`EJHttpRequest` it allocates.  Modelled from the spec: a newly constructed
`EJHttpRequest` has no body, tag or headers (the binding sets only url, type
and callback). -/
def EJBindingHttpRequest._func_send (w : Nat) (W : World) (newAddr : Nat) : Option World :=
  match W.xhr.method, W.xhr.url with
  | some method, some url =>
    let c := W.xhr.clearConnection
    match releaseIf c.2 W.client W.s_pHttpClient with
    | none => none
    | some (client1, p1) =>
      let request : EJHttpRequest :=
        { addr := newAddr, requestType := requestTypeOf method, url := url,
          requestData := [], tag := "", headers := [], target := some W.xhr.self,
          selector := some SEL_HttpResponse.onHttpRequestCompleted }
      let p2 := EJHttpClient.getInstance p1
      let x1 := { c.1 with connection := some () }
      let fired1 := W.fired ++ ["loadstart"]
      let x2 := { x1 with state := EJHttpRequestState.kEJHttpRequestStateLoading }
      match EJHttpClient.send w client1 (some request) with
      | none => none
      | some client2 =>
        some { client := client2, s_pHttpClient := p2, xhr := x2,
               fired := fired1 ++ ["load"] }
  | _, _ => some W

/-- The effect on the binding object of one event of the poll: a callback whose
target is the object and whose selector is `onHttpRequestCompleted` runs the
handler on it; anything else leaves it alone. -/
def World.deliver (W : World) (e : Event) : World :=
  match e with
  | Event.callback pTarget SEL_HttpResponse.onHttpRequestCompleted response =>
    if pTarget = W.xhr.self then
      let r := W.xhr.onHttpRequestCompleted (some response)
      { W with xhr := r.1, fired := W.fired ++ r.2 }
    else W
  | _ => W

/-- A step of the program around one binding object: the script calls `open` or
`send` on it, the worker thread makes a step, or the host polls. -/
inductive ScriptAction where
  | callOpen (argv : List JSValue)
  | callSend (newAddr : Nat)
  | worker (run : CurlRun)
  | poll
  deriving DecidableEq, Repr

/-- Whether a worker step called `EJHttpClient::getInstance()`: it does so in
`configureCURL` (lines 193 and 197), when the step made a transfer and the
set-up of the transfer got as far as reading the timeouts. -/
def workerAsksInstance (run : CurlRun) (evs : List Event) : Bool :=
  evs.any (fun e => match e with
                    | Event.transfer _ => true
                    | _ => false)
    && (run.setupOk || run.timeoutsRead)

/-- The effect of one script-level action, with the events of the client it
causes; `none` when it faults.  A worker step that calls `getInstance`
re-creates the singleton when it has been destroyed. -/
def World.step (w : Nat) (a : ScriptAction) (W : World) : Option (World × List Event) :=
  match a with
  | ScriptAction.callOpen argv => (W.callOpen argv).map (fun W1 => (W1, []))
  | ScriptAction.callSend newAddr =>
    (EJBindingHttpRequest._func_send w W newAddr).map (fun W1 => (W1, []))
  | ScriptAction.worker run =>
    (networkThread w run W.client).map
      (fun p => ({ W with client := p.1,
                          s_pHttpClient :=
                            if workerAsksInstance run p.2 then
                              EJHttpClient.getInstance W.s_pHttpClient
                            else W.s_pHttpClient }, p.2))
  | ScriptAction.poll =>
    (EJHttpClient.dispatchResponseCallbacks W.client).map
      (fun p => (p.2.foldl World.deliver { W with client := p.1 }, p.2))

/-- Runs the script-level actions in order; an action that faults ends the
execution. -/
def World.exec (w : Nat) : List ScriptAction → World → List Event × Option World
  | [], W => ([], some W)
  | a :: rest, W =>
    match World.step w a W with
    | none => ([], none)
    | some (W1, evs) =>
      let r := World.exec w rest W1
      (evs ++ r.1, r.2)

/-- The number of times the completion handler `onHttpRequestCompleted` of the
object at address `self` is run by the given events. -/
def completionCalls (self : Nat) : List Event → Nat
  | [] => 0
  | Event.callback pTarget SEL_HttpResponse.onHttpRequestCompleted _ :: rest =>
    (if pTarget = self then 1 else 0) + completionCalls self rest
  | _ :: rest => completionCalls self rest

/-- Whether an action is a step of the worker or a poll. -/
def ScriptAction.isClientStep : ScriptAction → Bool
  | ScriptAction.worker _ => true
  | ScriptAction.poll => true
  | _ => false

/-- The number of `send` calls among script-level actions. -/
def sendCalls : List ScriptAction → Nat
  | [] => 0
  | ScriptAction.callSend _ :: rest => 1 + sendCalls rest
  | _ :: rest => sendCalls rest

/-- The arguments of `open("GET", "http://example.org/a")`. -/
def getArgs : List JSValue :=
  [⟨"GET", true⟩, ⟨"http://example.org/a", true⟩]

/-- The arguments of `open("POST", "http://example.org/b")`. -/
def postArgs : List JSValue :=
  [⟨"POST", true⟩, ⟨"http://example.org/b", true⟩]

/-- A transfer that ends with status 200 and the three-byte body 65 0 66. -/
def zeroByteRun : CurlRun :=
  { setupOk := true, timeoutsRead := true, writes := [⟨[65, 0, 66], 1, 3⟩], performOk := true,
    getinfoOk := true,
    infoCode := some 200, errorText := none }

/-- A failed response to `r`: no status code was obtained. -/
def failedResponse (r : EJHttpRequest) : EJHttpResponse :=
  { request := r, succeed := false, responseData := [], responseCode := -1,
    errorBuffer := "Could not resolve host" }

/-- A new object at address 7 is opened and sent; the worker passes its test of
`need_quit`, dequeues the request and the transfer fails; the host polls. -/
def failedExchange : List ScriptAction :=
  [ScriptAction.callOpen getArgs, ScriptAction.callSend 10, ScriptAction.worker failedRun,
   ScriptAction.worker failedRun, ScriptAction.worker failedRun, ScriptAction.poll]

/-- The mutexes of the client (lines 9, 10 and 12). -/
inductive Mutex where
  | s_requestQueueMutex
  | s_responseQueueMutex
  | s_SleepMutex
  deriving DecidableEq, Repr

/-- The state the two threads share: the pending queue, the completion queue
and the outstanding counter (lines 23, 24 and 15). -/
inductive Shared where
  | s_requestQueue
  | s_responseQueue
  | s_asyncRequestCount
  deriving DecidableEq, Repr

/-- What an access touches: the static itself (the pointer to a queue, tested
against `NULL` or assigned; the counter) or the content of the array behind
the pointer (`count`, `objectAtIndex`, `addObject`, `removeObjectAtIndex`,
`removeAllObjects`, `init`, `release`). -/
inductive Part where
  | variable
  | content
  deriving DecidableEq, Repr

/-- One synchronisation-relevant operation of a thread, with the source line
it stands on: `pthread_mutex_lock`, `pthread_mutex_unlock`,
`pthread_cond_wait` (which returns with its mutex locked), or a read or a
write of shared state. -/
inductive SyncOp where
  | lock (m : Mutex) (line : Nat)
  | unlock (m : Mutex) (line : Nat)
  | wait (m : Mutex) (line : Nat)
  | read (x : Shared) (part : Part) (line : Nat)
  | write (x : Shared) (part : Part) (line : Nat)
  deriving DecidableEq, Repr

/-- The operations of `EJHttpClient::lazyInitThreadSemphore` (lines 353-378),
in program order: the test of `s_requestQueue` and, when it is `NULL`, the
creation of the two queues. -/
def EJHttpClient.lazyInitThreadSemphore.ops (initialised : Bool) : List SyncOp :=
  SyncOp.read Shared.s_requestQueue Part.variable 355
    :: (if initialised then []
        else [SyncOp.write Shared.s_requestQueue Part.variable 359,
              SyncOp.write Shared.s_requestQueue Part.content 360,
              SyncOp.write Shared.s_responseQueue Part.variable 362,
              SyncOp.write Shared.s_responseQueue Part.content 363])

/-- The operations of `EJHttpClient::send` (lines 381-403), in program order;
`requestNull` is whether the argument is `NULL`. -/
def EJHttpClient.send.ops (initialised requestNull : Bool) : List SyncOp :=
  EJHttpClient.lazyInitThreadSemphore.ops initialised
    ++ (if requestNull then []
        else [SyncOp.read Shared.s_asyncRequestCount Part.variable 393,
              SyncOp.write Shared.s_asyncRequestCount Part.variable 393,
              SyncOp.lock Mutex.s_requestQueueMutex 397,
              SyncOp.write Shared.s_requestQueue Part.content 398,
              SyncOp.unlock Mutex.s_requestQueueMutex 399])

/-- The operations of `EJHttpClient::dispatchResponseCallbacks` (lines
406-442), in program order; `counterZero` is the outcome of the test on
line 409 and `queueEmpty` that of the test on line 419. -/
def EJHttpClient.dispatchResponseCallbacks.ops (counterZero queueEmpty : Bool) :
    List SyncOp :=
  SyncOp.read Shared.s_asyncRequestCount Part.variable 409
    :: (if counterZero then []
        else [SyncOp.lock Mutex.s_responseQueueMutex 418,
              SyncOp.read Shared.s_responseQueue Part.content 419]
          ++ (if queueEmpty then []
              else [SyncOp.read Shared.s_responseQueue Part.content 421,
                    SyncOp.write Shared.s_responseQueue Part.content 422])
          ++ [SyncOp.unlock Mutex.s_responseQueueMutex 424]
          ++ (if queueEmpty then []
              else [SyncOp.read Shared.s_asyncRequestCount Part.variable 428,
                    SyncOp.write Shared.s_asyncRequestCount Part.variable 428]))

/-- The operations of one pass of `networkThread` through its loop body
(lines 66-150), in program order; `queueEmpty` is the outcome of the test on
line 70.  With no request the worker waits on the condition variable; with
one it makes the transfer and queues the response. -/
def networkThread.loopOps (queueEmpty : Bool) : List SyncOp :=
  [SyncOp.lock Mutex.s_requestQueueMutex 69,
   SyncOp.read Shared.s_requestQueue Part.content 70]
    ++ (if queueEmpty then []
        else [SyncOp.read Shared.s_requestQueue Part.content 72,
              SyncOp.write Shared.s_requestQueue Part.content 73])
    ++ [SyncOp.unlock Mutex.s_requestQueueMutex 76]
    ++ (if queueEmpty then [SyncOp.wait Mutex.s_SleepMutex 81]
        else [SyncOp.lock Mutex.s_responseQueueMutex 148,
              SyncOp.write Shared.s_responseQueue Part.content 149,
              SyncOp.unlock Mutex.s_responseQueueMutex 150])

/-- The operations of the cleanup of `networkThread` (lines 156-174), in
program order. -/
def networkThread.cleanupOps : List SyncOp :=
  [SyncOp.lock Mutex.s_requestQueueMutex 157,
   SyncOp.write Shared.s_requestQueue Part.content 158,
   SyncOp.unlock Mutex.s_requestQueueMutex 159,
   SyncOp.read Shared.s_requestQueue Part.content 160,
   SyncOp.read Shared.s_asyncRequestCount Part.variable 160,
   SyncOp.write Shared.s_asyncRequestCount Part.variable 160,
   SyncOp.read Shared.s_requestQueue Part.variable 162,
   SyncOp.write Shared.s_requestQueue Part.content 170,
   SyncOp.write Shared.s_requestQueue Part.variable 171,
   SyncOp.write Shared.s_responseQueue Part.content 172,
   SyncOp.write Shared.s_responseQueue Part.variable 173]

/-- Whether an access to `x` by a thread that holds the mutexes `held` is
guarded.  A queue is guarded by the mutex named after it.  No mutex is named
after the counter: an access to it counts as guarded when the thread holds
any mutex at all. -/
def guardedBy (x : Shared) (held : List Mutex) : Bool :=
  match x with
  | Shared.s_requestQueue => held.contains Mutex.s_requestQueueMutex
  | Shared.s_responseQueue => held.contains Mutex.s_responseQueueMutex
  | Shared.s_asyncRequestCount => !held.isEmpty

/-- Pairs every read and write of a thread with the mutexes the thread holds
at that point, starting with `held`. -/
def heldAt : List Mutex → List SyncOp → List (SyncOp × List Mutex)
  | _, [] => []
  | held, SyncOp.lock m _ :: rest => heldAt (m :: held) rest
  | held, SyncOp.unlock m _ :: rest => heldAt (held.erase m) rest
  | held, SyncOp.wait m _ :: rest => heldAt (m :: held.erase m) rest
  | held, SyncOp.read x part line :: rest =>
    (SyncOp.read x part line, held) :: heldAt held rest
  | held, SyncOp.write x part line :: rest =>
    (SyncOp.write x part line, held) :: heldAt held rest

/-- Whether an operation paired with the mutexes held is a guarded access. -/
def isGuarded (a : SyncOp × List Mutex) : Bool :=
  match a.1 with
  | SyncOp.read x _ _ => guardedBy x a.2
  | SyncOp.write x _ _ => guardedBy x a.2
  | _ => true

/-- The reads and writes of a thread that are made with no guarding mutex
held, in program order. -/
def unguarded (held : List Mutex) (ops : List SyncOp) : List SyncOp :=
  ((heldAt held ops).filter (fun a => !isGuarded a)).map (fun a => a.1)

/-- Whether two accesses by different threads, each paired with the mutexes
its thread holds, can happen at the same time and conflict: they touch the
same part of the same shared state, one of them writes, and no mutex is held
by both threads. -/
def races (a b : SyncOp × List Mutex) : Bool :=
  (match a.1, b.1 with
   | SyncOp.write x p _, SyncOp.write y q _ => decide (x = y) && decide (p = q)
   | SyncOp.write x p _, SyncOp.read y q _ => decide (x = y) && decide (p = q)
   | SyncOp.read x p _, SyncOp.write y q _ => decide (x = y) && decide (p = q)
   | _, _ => false)
    && a.2.all (fun m => !b.2.contains m)

/-- The mutexes the worker holds when it is at its loop head: none before its
first wait; `s_SleepMutex` after a wait, since `pthread_cond_wait` returns
with the mutex locked and the worker never unlocks it. -/
def workerHeld (hasWaited : Bool) : List Mutex :=
  if hasWaited then [Mutex.s_SleepMutex] else []

/-! ## Lemmas -/

theorem lazyInit_fst (s : ClientState) : (EJHttpClient.lazyInitThreadSemphore s).1 = true := by
  unfold EJHttpClient.lazyInitThreadSemphore
  cases s.s_requestQueue <;> rfl

theorem lazyInit_queue (s : ClientState) :
    ∃ q, (EJHttpClient.lazyInitThreadSemphore s).2.s_requestQueue = some q := by
  unfold EJHttpClient.lazyInitThreadSemphore
  cases hq : s.s_requestQueue with
  | some q => exact ⟨q, by simp [hq]⟩
  | none => exact ⟨[], by simp⟩

theorem lazyInit_held (s : ClientState) (x : Nat) :
    (EJHttpClient.lazyInitThreadSemphore s).2.heldAddrs.count x ≤ s.heldAddrs.count x := by
  unfold EJHttpClient.lazyInitThreadSemphore
  cases hq : s.s_requestQueue with
  | some q => simp
  | none => simp [ClientState.heldAddrs, ClientState.completed, ClientState.pending]

theorem deliver_eq_append (writes : List WriteCall) (stream : List Byte) :
    deliver writes stream
      = stream ++ (writes.map (fun c => c.ptr.take (c.size * c.nmemb))).flatten := by
  unfold deliver
  induction writes generalizing stream with
  | nil => simp
  | cons c rest ih =>
    rw [List.foldl_cons, ih]
    simp [writeData, List.append_assoc]

theorem deliver_exact (writes : List WriteCall) (stream : List Byte)
    (h : ∀ c ∈ writes, c.ptr.length = c.size * c.nmemb) :
    deliver writes stream = stream ++ (writes.map (fun c => c.ptr)).flatten := by
  rw [deliver_eq_append]
  congr 2
  apply List.map_congr_left
  intro c hc
  rw [← h c hc, List.take_length]

theorem process_shape (w : Nat) (run : CurlRun) (request : EJHttpRequest)
    (errorBuffer : String) (p : EJHttpResponse × String × List Event)
    (h : networkThread.process w run request errorBuffer = some p) :
    p.1.request = request ∧ callbackAddrs p.2.2 = [] := by
  unfold networkThread.process at h
  simp only [EJHttpResponse.new] at h
  split at h
  · exact absurd h (by simp)
  · rename_i r hr
    simp only [Option.some.injEq] at h
    subst h
    refine ⟨by split <;> rfl, ?_⟩
    simp only []
    cases hty : request.requestType <;> simp only [hty] at hr
    case kHttpUnkown =>
      simp only [Option.some.injEq] at hr
      subst hr
      rfl
    all_goals
      simp only [Option.map_eq_some'] at hr
      obtain ⟨t, _, ht⟩ := hr
      subst ht
      rfl

theorem process_request (w : Nat) (run : CurlRun) (request : EJHttpRequest)
    (errorBuffer : String) (p : EJHttpResponse × String × List Event)
    (h : networkThread.process w run request errorBuffer = some p) :
    p.1.request = request :=
  (process_shape w run request errorBuffer p h).1

theorem process_no_callback (w : Nat) (run : CurlRun) (request : EJHttpRequest)
    (errorBuffer : String) (p : EJHttpResponse × String × List Event)
    (h : networkThread.process w run request errorBuffer = some p) :
    callbackAddrs p.2.2 = [] :=
  (process_shape w run request errorBuffer p h).2

/-- For a GET, POST, PUT or DELETE request the worker runs the task and builds
the response from what the task leaves behind. -/
theorem process_of_task (w : Nat) (run : CurlRun) (request : EJHttpRequest)
    (errorBuffer : String) (hty : request.requestType ≠ HttpRequestType.kHttpUnkown) :
    networkThread.process w run request errorBuffer
      = (processTask w run [] (-1) errorBuffer).map (fun t =>
          ((if t.retValue ≠ 0 then
              { request := request, succeed := false, responseData := t.stream,
                responseCode := t.responseCode, errorBuffer := t.errorBuffer }
            else
              { request := request, succeed := true, responseData := t.stream,
                responseCode := t.responseCode, errorBuffer := "" } : EJHttpResponse),
           t.errorBuffer, [Event.transfer request])) := by
  unfold networkThread.process processGetTask processPostTask processPutTask processDeleteTask
  simp only [EJHttpResponse.new]
  cases hreq : request.requestType <;> first | exact absurd hreq hty | skip
  all_goals
    cases processTask w run [] (-1) errorBuffer with
    | none => rfl
    | some t => rfl

/-- A task whose set-up or `curl_easy_perform` fails returns 1 and leaves
`*responseCode` alone. -/
theorem processTask_failure (w : Nat) (run : CurlRun) (stream : List Byte)
    (responseCode : Int) (errorBuffer : String)
    (hfail : run.setupOk = false ∨ run.performOk = false) :
    processTask w run stream responseCode errorBuffer
      = some { retValue := 1,
               stream := if run.setupOk then deliver run.writes stream else stream,
               responseCode := responseCode,
               errorBuffer := if run.setupOk then run.errorText.getD errorBuffer
                              else errorBuffer } := by
  unfold processTask CURLRaii.perform
  cases hs : run.setupOk
  · simp
  · rcases hfail with hf | hf
    · rw [hs] at hf
      exact absurd hf (by decide)
    · simp [hf]

/-- Where `long` has at most 32 bits, a transfer that is set up, performed and
ends with code 200 makes the task return 0 with the delivered bytes. -/
theorem processTask_ok (w : Nat) (run : CurlRun) (stream : List Byte)
    (responseCode : Int) (errorBuffer : String) (hw : w ≤ 32)
    (hsetup : run.setupOk = true) (hperform : run.performOk = true)
    (hgetinfo : run.getinfoOk = true) (hcode : run.infoCode = some 200) :
    processTask w run stream responseCode errorBuffer
      = some { retValue := 0, stream := deliver run.writes stream, responseCode := 200,
               errorBuffer := run.errorText.getD errorBuffer } := by
  have hnot : ¬ 32 < w := Nat.not_lt.mpr hw
  simp [processTask, CURLRaii.perform, hsetup, hperform, hgetinfo, hcode, hnot]

/-- Where `long` is wider than 32 bits, a transfer on which `curl_easy_getinfo`
stores the response code faults. -/
theorem processTask_overrun (w : Nat) (run : CurlRun) (stream : List Byte)
    (responseCode : Int) (errorBuffer : String) (code : Int) (hw : 32 < w)
    (hsetup : run.setupOk = true) (hperform : run.performOk = true)
    (hcode : run.infoCode = some code) :
    processTask w run stream responseCode errorBuffer = none := by
  simp [processTask, CURLRaii.perform, hsetup, hperform, hcode, hw]

theorem perform_narrow (w : Nat) (run : CurlRun) (stream : List Byte)
    (responseCode : Int) (errorBuffer : String) (hw : w ≤ 32) :
    (CURLRaii.perform w run stream responseCode errorBuffer).isSome = true := by
  have hnot : ¬ 32 < w := Nat.not_lt.mpr hw
  unfold CURLRaii.perform
  cases run.performOk <;> cases run.infoCode <;> simp [hnot] <;> split <;> rfl

/-- Where `long` has at most 32 bits no task faults. -/
theorem processTask_narrow (w : Nat) (run : CurlRun) (stream : List Byte)
    (responseCode : Int) (errorBuffer : String) (hw : w ≤ 32) :
    ∃ t, processTask w run stream responseCode errorBuffer = some t := by
  have hp := perform_narrow w run stream responseCode errorBuffer hw
  obtain ⟨p, hp1⟩ := Option.isSome_iff_exists.mp hp
  unfold processTask
  cases run.setupOk
  · exact ⟨_, rfl⟩
  · simp only [if_true, hp1]
    exact ⟨_, rfl⟩

/-- Where `long` has at most 32 bits the worker's transfer step does not fault. -/
theorem process_narrow (w : Nat) (run : CurlRun) (request : EJHttpRequest)
    (errorBuffer : String) (hw : w ≤ 32) :
    ∃ p, networkThread.process w run request errorBuffer = some p := by
  by_cases hty : request.requestType = HttpRequestType.kHttpUnkown
  · unfold networkThread.process
    simp only [hty]
    exact ⟨_, rfl⟩
  · obtain ⟨t, ht⟩ := processTask_narrow w run [] (-1) errorBuffer hw
    rw [process_of_task w run request errorBuffer hty, ht]
    exact ⟨_, rfl⟩

/-- A task that does not fault returns 0 exactly when the set-up,
`curl_easy_perform` and `curl_easy_getinfo` all succeeded and the response
code read is 200. -/
theorem processTask_ret (w : Nat) (run : CurlRun) (stream : List Byte)
    (responseCode : Int) (errorBuffer : String) (t : TaskResult)
    (h : processTask w run stream responseCode errorBuffer = some t) :
    t.retValue = 0
      ↔ (run.setupOk = true ∧ run.performOk = true ∧ run.getinfoOk = true
          ∧ run.infoCode.getD responseCode = 200) := by
  unfold processTask CURLRaii.perform at h
  cases hs : run.setupOk
  · simp [hs] at h
    subst h
    simp
  · cases hp : run.performOk
    · simp [hs, hp] at h
      subst h
      simp
    · cases hc : run.infoCode with
      | none =>
        simp only [hs, hp, hc, if_true] at h
        by_cases hcond : run.getinfoOk = false ∨ responseCode ≠ 200
        · simp [hcond] at h
          subst h
          rcases hcond with hg | hg
          · simp [hg]
          · simp [hg]
        · simp [hcond] at h
          subst h
          simp only [not_or, Bool.not_eq_false, ne_eq, not_not] at hcond
          simp [hcond.1, hcond.2]
      | some code =>
        simp only [hs, hp, hc, if_true] at h
        by_cases hw : 32 < w
        · simp [hw] at h
        · by_cases hcond : run.getinfoOk = false ∨ code ≠ 200
          · simp [hw, hcond] at h
            subst h
            rcases hcond with hg | hg
            · simp [hg]
            · simp [hg]
          · simp [hw, hcond] at h
            subst h
            simp only [not_or, Bool.not_eq_false, ne_eq, not_not] at hcond
            simp [hcond.1, hcond.2]

/-- For a GET, POST, PUT or DELETE request whose transfer does not fault, the
success flag of the response is set exactly when the set-up,
`curl_easy_perform` and `curl_easy_getinfo` all succeeded and the response
code read is 200. -/
theorem process_succeed_iff (w : Nat) (run : CurlRun) (request : EJHttpRequest)
    (errorBuffer : String) (p : EJHttpResponse × String × List Event)
    (hty : request.requestType ≠ HttpRequestType.kHttpUnkown)
    (h : networkThread.process w run request errorBuffer = some p) :
    p.1.succeed = true
      ↔ (run.setupOk = true ∧ run.performOk = true ∧ run.getinfoOk = true
          ∧ run.infoCode.getD (-1) = 200) := by
  rw [process_of_task w run request errorBuffer hty] at h
  simp only [Option.map_eq_some'] at h
  obtain ⟨t, ht, hp⟩ := h
  rw [← processTask_ret w run [] (-1) errorBuffer t ht, ← hp]
  by_cases hr : t.retValue = 0
  · simp [hr]
  · simp [hr]

/-- What a step of the worker can be: each alternative names where the worker
stood, what it found, and the statics and events it leaves. -/
theorem networkThread_cases (w : Nat) (run : CurlRun) (s s1 : ClientState)
    (evs : List Event) (h : networkThread w run s = some (s1, evs)) :
    (s.s_networkThread = WorkerPc.absent ∧ s1 = s ∧ evs = [])
    ∨ (s.s_networkThread = WorkerPc.loopHead ∧ s.need_quit = true
        ∧ (∃ q p, s.s_requestQueue = some q ∧ s.s_responseQueue = some p)
        ∧ s1 = { s with s_asyncRequestCount := subULong w s.s_asyncRequestCount 0,
                        s_requestQueue := none, s_responseQueue := none,
                        s_networkThread := WorkerPc.absent }
        ∧ evs = [])
    ∨ (s.s_networkThread = WorkerPc.loopHead ∧ s.need_quit = false
        ∧ s1 = { s with s_networkThread := WorkerPc.dequeuing } ∧ evs = [])
    ∨ (s.s_networkThread = WorkerPc.dequeuing ∧ s.s_requestQueue = some []
        ∧ s1 = { s with s_networkThread := WorkerPc.loopHead } ∧ evs = [])
    ∨ (∃ r rest, s.s_networkThread = WorkerPc.dequeuing ∧ s.s_requestQueue = some (r :: rest)
        ∧ s1 = { s with s_requestQueue := some rest,
                        s_networkThread := WorkerPc.transferring r }
        ∧ evs = [])
    ∨ (∃ request p q, s.s_networkThread = WorkerPc.transferring request
        ∧ networkThread.process w run request s.s_errorBuffer = some p
        ∧ s.s_responseQueue = some q
        ∧ s1 = { s with s_responseQueue := some (q ++ [p.1]), s_errorBuffer := p.2.1,
                        s_networkThread := WorkerPc.loopHead }
        ∧ evs = p.2.2) := by
  unfold networkThread at h
  cases hpc : s.s_networkThread with
  | absent =>
    simp [hpc] at h
    exact Or.inl ⟨rfl, h.1.symm, h.2⟩
  | loopHead =>
    rw [hpc] at h
    cases hquit : s.need_quit with
    | true =>
      simp only [hquit, if_true] at h
      cases hq : s.s_requestQueue with
      | none => simp [hq] at h
      | some q =>
        cases hp : s.s_responseQueue with
        | none => simp [hq, hp] at h
        | some p =>
          simp [hq, hp] at h
          exact Or.inr (Or.inl ⟨rfl, rfl, ⟨q, p, rfl, rfl⟩, h.1.symm, h.2⟩)
    | false =>
      simp [hquit] at h
      exact Or.inr (Or.inr (Or.inl ⟨rfl, rfl, h.1.symm, h.2⟩))
  | dequeuing =>
    rw [hpc] at h
    cases hq : s.s_requestQueue with
    | none => simp [hq] at h
    | some q =>
      cases q with
      | nil =>
        simp [hq] at h
        exact Or.inr (Or.inr (Or.inr (Or.inl ⟨rfl, rfl, h.1.symm, h.2⟩)))
      | cons r rest =>
        simp [hq] at h
        exact Or.inr (Or.inr (Or.inr (Or.inr (Or.inl
          ⟨r, rest, rfl, rfl, h.1.symm, h.2⟩))))
  | transferring request =>
    rw [hpc] at h
    cases hproc : networkThread.process w run request s.s_errorBuffer with
    | none => simp [hproc] at h
    | some p =>
      cases hp : s.s_responseQueue with
      | none => simp [hproc, hp] at h
      | some q =>
        simp [hproc, hp] at h
        exact Or.inr (Or.inr (Or.inr (Or.inr (Or.inr
          ⟨request, p, q, rfl, hproc, rfl, h.1.symm, h.2.symm⟩))))

theorem callbackAddrs_append (a b : List Event) :
    callbackAddrs (a ++ b) = callbackAddrs a ++ callbackAddrs b := by
  induction a with
  | nil => rfl
  | cons e rest ih =>
    cases e <;> simp [callbackAddrs, ih]

theorem sentAddrs_cons_count (a : Action) (rest : List Action) (x : Nat) :
    (sentAddrs (a :: rest)).count x = (sentAddrs [a]).count x + (sentAddrs rest).count x := by
  cases a with
  | send request =>
    cases request with
    | none => simp [sentAddrs]
    | some r => simp [sentAddrs, List.count_cons]; omega
  | worker run => simp [sentAddrs]
  | poll => simp [sentAddrs]
  | shutdown => simp [sentAddrs]

/-- One action of an execution moves request identities between the places
that hold them, or drops them; only a `send` brings in a new one.  Counted
per identity `x`: handler invocations made by the action plus requests held
afterwards are at most the requests held before plus the one submitted. -/
theorem step_count (w : Nat) (a : Action) (s s1 : ClientState) (evs : List Event)
    (h : step w a s = some (s1, evs)) (x : Nat) :
    (callbackAddrs evs).count x + s1.heldAddrs.count x
      ≤ s.heldAddrs.count x + (sentAddrs [a]).count x := by
  cases a with
  | send request =>
    have hl := lazyInit_held s x
    obtain ⟨q, hq⟩ := lazyInit_queue s
    cases request with
    | none =>
      simp only [step, EJHttpClient.send, lazyInit_fst] at h
      simp at h
      obtain ⟨h1, h2⟩ := h
      subst h1 h2
      simpa [callbackAddrs, sentAddrs] using hl
    | some r =>
      simp only [step, EJHttpClient.send, lazyInit_fst] at h
      simp [hq] at h
      obtain ⟨h1, h2⟩ := h
      subst h1 h2
      simp only [ClientState.heldAddrs, ClientState.completed, ClientState.pending,
        callbackAddrs, sentAddrs] at hl ⊢
      simp [hq, List.count_append] at hl ⊢
      omega
  | worker run =>
    rcases networkThread_cases w run s s1 evs h with
      ⟨_, h1, h2⟩ | ⟨_, _, _, h1, h2⟩ | ⟨hpc, _, h1, h2⟩ | ⟨hpc, _, h1, h2⟩
        | ⟨r, rest, hpc, hq, h1, h2⟩ | ⟨request, p, q, hpc, hproc, hq, h1, h2⟩
    · subst h1 h2
      simp [callbackAddrs]
    · subst h1 h2
      simp [callbackAddrs, ClientState.heldAddrs, ClientState.completed,
        ClientState.pending]
    · subst h1 h2
      simp [callbackAddrs, ClientState.heldAddrs, ClientState.completed,
        ClientState.pending, hpc]
    · subst h1 h2
      simp [callbackAddrs, ClientState.heldAddrs, ClientState.completed,
        ClientState.pending, hpc]
    · subst h1 h2
      simp [callbackAddrs, ClientState.heldAddrs, ClientState.completed,
        ClientState.pending, hq, hpc, List.count_append, List.count_cons]
    · subst h1 h2
      have hreq := process_request w run request s.s_errorBuffer p hproc
      have hcb := process_no_callback w run request s.s_errorBuffer p hproc
      simp [hreq, hcb, ClientState.heldAddrs, ClientState.completed,
        ClientState.pending, hq, hpc, List.count_append, List.count_cons]
  | poll =>
    simp only [step, EJHttpClient.dispatchResponseCallbacks] at h
    by_cases hc : s.s_asyncRequestCount = 0
    · simp [hc] at h
      obtain ⟨h1, h2⟩ := h
      subst h1 h2
      simp [callbackAddrs]
    · rw [if_neg hc] at h
      cases hp : s.s_responseQueue with
      | none => simp [hp] at h
      | some p =>
        cases p with
        | nil =>
          simp [hp] at h
          obtain ⟨h1, h2⟩ := h
          subst h1 h2
          simp [callbackAddrs]
        | cons r rest =>
          rw [hp] at h
          cases ht : r.request.target <;> cases hs : r.request.selector <;>
            simp [ht, hs] at h <;> obtain ⟨h1, h2⟩ := h <;> subst h1 h2 <;>
            simp [callbackAddrs, ClientState.heldAddrs, ClientState.completed,
              ClientState.pending, hp, List.count_append, List.count_cons] <;> omega
  | shutdown =>
    simp [step, EJHttpClient.destructor] at h
    obtain ⟨h1, h2⟩ := h
    subst h1 h2
    simp [callbackAddrs, ClientState.heldAddrs, ClientState.completed, ClientState.pending]

/-- Over a whole execution from `s`, the completion handler is invoked for a
request identity at most as often as that identity is held in `s` or
submitted during the execution. -/
theorem exec_count (w : Nat) (acts : List Action) (s : ClientState) (x : Nat) :
    (callbackAddrs (exec w acts s).1).count x
      ≤ s.heldAddrs.count x + (sentAddrs acts).count x := by
  induction acts generalizing s with
  | nil => simp [exec, callbackAddrs]
  | cons a rest ih =>
    unfold exec
    cases hstep : step w a s with
    | none => simp [callbackAddrs]
    | some r =>
      obtain ⟨s1, evs⟩ := r
      have h1 := step_count w a s s1 evs hstep x
      have h2 := ih s1
      have h3 := sentAddrs_cons_count a rest x
      simp only [callbackAddrs_append, List.count_append]
      omega

theorem initial_wellFormed (w : Nat) : ClientState.initial.WellFormed w := by
  refine ⟨by simp [ClientState.initial], by simp [ClientState.initial], ?_⟩
  exact Nat.two_pow_pos w

theorem step_wellFormed (w : Nat) (a : Action) (s s1 : ClientState) (evs : List Event)
    (hs : s.WellFormed w) (h : step w a s = some (s1, evs)) : s1.WellFormed w := by
  obtain ⟨hqp, hpc, hc⟩ := hs
  have hpos : 0 < 2 ^ w := Nat.two_pow_pos w
  cases a with
  | send request =>
    simp only [step, EJHttpClient.send, lazyInit_fst] at h
    unfold EJHttpClient.lazyInitThreadSemphore at h
    cases hq : s.s_requestQueue with
    | none =>
      cases request with
      | none =>
        simp [hq] at h
        obtain ⟨h1, h2⟩ := h
        subst h1 h2
        exact ⟨by simp, by simp, hc⟩
      | some r =>
        simp [hq] at h
        obtain ⟨h1, h2⟩ := h
        subst h1 h2
        exact ⟨by simp, by simp, Nat.mod_lt _ hpos⟩
    | some q =>
      have hp : s.s_responseQueue ≠ none := fun hn => by
        have := hqp.mpr hn
        simp [hq] at this
      have ht : s.s_networkThread ≠ WorkerPc.absent := fun hn => by
        have := hpc.mp hn
        simp [hq] at this
      cases request with
      | none =>
        simp [hq] at h
        obtain ⟨h1, h2⟩ := h
        subst h1 h2
        exact ⟨hqp, hpc, hc⟩
      | some r =>
        simp [hq] at h
        obtain ⟨h1, h2⟩ := h
        subst h1 h2
        exact ⟨by simp [hp], by simp [ht], Nat.mod_lt _ hpos⟩
  | worker run =>
    rcases networkThread_cases w run s s1 evs h with
      ⟨_, h1, h2⟩ | ⟨_, _, _, h1, h2⟩ | ⟨hthr, _, h1, h2⟩ | ⟨hthr, _, h1, h2⟩
        | ⟨r, rest, hthr, hq, h1, h2⟩ | ⟨request, p, q, hthr, hproc, hp, h1, h2⟩
    · subst h1 h2
      exact ⟨hqp, hpc, hc⟩
    · subst h1 h2
      exact ⟨by simp, by simp, Nat.mod_lt _ hpos⟩
    · have hq : s.s_requestQueue ≠ none := fun hn => by
        have := hpc.mpr hn
        simp [hthr] at this
      subst h1 h2
      exact ⟨hqp, by simp [hq], hc⟩
    · have hq : s.s_requestQueue ≠ none := fun hn => by
        have := hpc.mpr hn
        simp [hthr] at this
      subst h1 h2
      exact ⟨hqp, by simp [hq], hc⟩
    · have hp : s.s_responseQueue ≠ none := fun hn => by
        have := hqp.mpr hn
        simp [hq] at this
      subst h1 h2
      exact ⟨by simp [hp], by simp, hc⟩
    · have hq : s.s_requestQueue ≠ none := fun hn => by
        have := hpc.mpr hn
        simp [hthr] at this
      subst h1 h2
      exact ⟨by simp [hq], by simp [hq], hc⟩
  | poll =>
    simp only [step, EJHttpClient.dispatchResponseCallbacks] at h
    by_cases hz : s.s_asyncRequestCount = 0
    · simp [hz] at h
      obtain ⟨h1, h2⟩ := h
      subst h1 h2
      exact ⟨hqp, hpc, hc⟩
    · rw [if_neg hz] at h
      cases hp : s.s_responseQueue with
      | none => simp [hp] at h
      | some p =>
        have hq : s.s_requestQueue ≠ none := fun hn => by
          have := hqp.mp hn
          simp [hp] at this
        cases p with
        | nil =>
          simp [hp] at h
          obtain ⟨h1, h2⟩ := h
          subst h1 h2
          exact ⟨hqp, hpc, hc⟩
        | cons r rest =>
          rw [hp] at h
          have hlt : s.s_asyncRequestCount - 1 < 2 ^ w := by omega
          cases ht : r.request.target <;> cases hs : r.request.selector <;>
            simp [ht, hs] at h <;> obtain ⟨h1, h2⟩ := h <;> subst h1 h2 <;>
            exact ⟨by simp [hq], hpc, hlt⟩
  | shutdown =>
    simp [step, EJHttpClient.destructor] at h
    obtain ⟨h1, h2⟩ := h
    subst h1 h2
    exact ⟨hqp, hpc, hc⟩

/-- Every state an execution from program start ends in is well formed. -/
theorem exec_wellFormed (w : Nat) (acts : List Action) (s s1 : ClientState)
    (hs : s.WellFormed w) (h : (exec w acts s).2 = some s1) : s1.WellFormed w := by
  induction acts generalizing s with
  | nil =>
    simp [exec] at h
    subst h
    exact hs
  | cons a rest ih =>
    unfold exec at h
    cases hstep : step w a s with
    | none => simp [hstep] at h
    | some r =>
      obtain ⟨s2, evs⟩ := r
      simp only [hstep] at h
      exact ih s2 (step_wellFormed w a s s2 evs hs hstep) h

theorem sendAll_appends (w : Nat) (reqs : List EJHttpRequest) (s : ClientState)
    (q : List EJHttpRequest) (hq : s.s_requestQueue = some q) :
    ∃ s1, sendAll w s reqs = some s1
      ∧ s1.s_requestQueue = some (q ++ reqs)
      ∧ s1.s_responseQueue = s.s_responseQueue
      ∧ s1.need_quit = s.need_quit
      ∧ s1.s_networkThread = s.s_networkThread := by
  induction reqs generalizing s q with
  | nil => exact ⟨s, rfl, by simp [hq], rfl, rfl, rfl⟩
  | cons r rest ih =>
    have hsend : EJHttpClient.send w s (some r)
        = some { s with s_asyncRequestCount := (s.s_asyncRequestCount + 1) % 2 ^ w,
                        s_requestQueue := some (q ++ [r]) } := by
      unfold EJHttpClient.send EJHttpClient.lazyInitThreadSemphore
      simp [hq]
    obtain ⟨s1, h1, h2, h3, h4, h5⟩ :=
      ih { s with s_asyncRequestCount := (s.s_asyncRequestCount + 1) % 2 ^ w,
                  s_requestQueue := some (q ++ [r]) } (q ++ [r]) rfl
    refine ⟨s1, ?_, ?_, h3, h4, h5⟩
    · simp only [sendAll, hsend, h1]
    · simpa using h2

/-- A transfer step of the worker does not fault where `long` has at most 32
bits, nor, at any width, when the set-up or `curl_easy_perform` fails (then
`curl_easy_getinfo` is not reached). -/
theorem process_safe (w : Nat) (run : CurlRun) (request : EJHttpRequest)
    (errorBuffer : String)
    (h : w ≤ 32 ∨ run.setupOk = false ∨ run.performOk = false) :
    ∃ p, networkThread.process w run request errorBuffer = some p := by
  rcases h with hw | hfail
  · exact process_narrow w run request errorBuffer hw
  · by_cases hty : request.requestType = HttpRequestType.kHttpUnkown
    · unfold networkThread.process
      simp only [hty]
      exact ⟨_, rfl⟩
    · rw [process_of_task w run request errorBuffer hty,
        processTask_failure w run [] (-1) errorBuffer hfail]
      exact ⟨_, rfl⟩

/-- One pass of the worker through its loop body, from the loop head with the
stop flag clear and a request pending whose transfer does not fault: the
request is taken off the pending queue and its response put on the completion
queue. -/
theorem iteration_dequeues (w : Nat) (run : CurlRun) (s : ClientState)
    (r : EJHttpRequest) (rest : List EJHttpRequest) (p : List EJHttpResponse)
    (hsafe : w ≤ 32 ∨ run.setupOk = false ∨ run.performOk = false)
    (hq : s.s_requestQueue = some (r :: rest)) (hp : s.s_responseQueue = some p)
    (hquit : s.need_quit = false) (hpc : s.s_networkThread = WorkerPc.loopHead) :
    ∃ s1 evs response, networkThread.iteration w run s = some (s1, evs)
      ∧ s1.s_requestQueue = some rest
      ∧ s1.s_responseQueue = some (p ++ [response])
      ∧ response.request = r
      ∧ s1.need_quit = false
      ∧ s1.s_networkThread = WorkerPc.loopHead := by
  obtain ⟨t, ht⟩ := process_safe w run r s.s_errorBuffer hsafe
  have hiter : networkThread.iteration w run s
      = some ({ s with s_requestQueue := some rest,
                       s_responseQueue := some (p ++ [t.1]),
                       s_errorBuffer := t.2.1,
                       s_networkThread := WorkerPc.loopHead }, t.2.2) := by
    unfold networkThread.iteration
    simp [networkThread, networkThread.finish, hq, hp, hquit, hpc, ht]
  exact ⟨_, _, _, hiter, rfl, rfl, process_request w run r s.s_errorBuffer t ht, hquit, rfl⟩

/-- As many passes of the worker as there are pending requests, none of whose
transfers faults, empty the pending queue and append one response per request,
in order. -/
theorem iterations_drain (w : Nat) (runs : List CurlRun) (s : ClientState)
    (q : List EJHttpRequest) (p : List EJHttpResponse)
    (hsafe : w ≤ 32 ∨ ∀ run ∈ runs, run.setupOk = false ∨ run.performOk = false)
    (hlen : runs.length = q.length)
    (hq : s.s_requestQueue = some q) (hp : s.s_responseQueue = some p)
    (hquit : s.need_quit = false) (hpc : s.s_networkThread = WorkerPc.loopHead) :
    ∃ s1 evs resps, iterations w s runs = some (s1, evs)
      ∧ s1.s_requestQueue = some []
      ∧ s1.s_responseQueue = some (p ++ resps)
      ∧ resps.map (fun x => x.request) = q := by
  induction runs generalizing s q p with
  | nil =>
    cases q with
    | nil => exact ⟨s, [], [], rfl, hq, by simp [hp], rfl⟩
    | cons r rest => simp at hlen
  | cons run runs ih =>
    cases q with
    | nil => simp at hlen
    | cons r rest =>
      have hsafe1 : w ≤ 32 ∨ run.setupOk = false ∨ run.performOk = false :=
        hsafe.imp id (fun h => h run (List.mem_cons_self run runs))
      have hsafe2 : w ≤ 32 ∨ ∀ x ∈ runs, x.setupOk = false ∨ x.performOk = false :=
        hsafe.imp id (fun h x hx => h x (List.mem_cons_of_mem run hx))
      obtain ⟨s1, evs1, response, h1, h2, h3, h4, h5, h6⟩ :=
        iteration_dequeues w run s r rest p hsafe1 hq hp hquit hpc
      have hlen1 : runs.length = rest.length := by simpa using hlen
      obtain ⟨s2, evs2, resps, k1, k2, k3, k4⟩ :=
        ih s1 rest (p ++ [response]) hsafe2 hlen1 h2 h3 h5 h6
      refine ⟨s2, evs1 ++ evs2, response :: resps, ?_, k2, ?_, ?_⟩
      · simp only [iterations, h1, k1]
      · simpa using k3
      · simp [h4, k4]

/-- For every list of N non-null requests and every list of N transfer
outcomes none of which overruns `responseCode` (`long` has at most 32 bits,
or every transfer fails before `curl_easy_getinfo`), N calls of `send` on a
freshly initialised client followed by N worker-loop iterations all return
and leave the pending queue empty and the completion queue holding exactly N
responses, whose owning requests are the submitted requests in submission
order: a failed transfer does not stop the worker. -/
theorem requests_answered_when_safe (w : Nat) (reqs : List EJHttpRequest)
    (runs : List CurlRun)
    (hsafe : w ≤ 32 ∨ ∀ run ∈ runs, run.setupOk = false ∨ run.performOk = false)
    (hlen : runs.length = reqs.length) :
    ∃ s1 s2 evs resps, sendAll w ClientState.fresh reqs = some s1
      ∧ iterations w s1 runs = some (s2, evs)
      ∧ s2.s_requestQueue = some []
      ∧ s2.s_responseQueue = some resps
      ∧ resps.length = reqs.length
      ∧ resps.map (fun x => x.request) = reqs := by
  obtain ⟨s1, h1, h2, h3, h4, h5⟩ := sendAll_appends w reqs ClientState.fresh [] rfl
  have hq : s1.s_requestQueue = some reqs := by simpa using h2
  obtain ⟨s2, evs, resps, k1, k2, k3, k4⟩ :=
    iterations_drain w runs s1 reqs [] hsafe hlen hq (by rw [h3]; rfl) (by rw [h4]; rfl)
      (by rw [h5]; rfl)
  refine ⟨s1, s2, evs, resps, h1, k1, k2, by simpa using k3, ?_, k4⟩
  rw [← k4, List.length_map]

/-- Where `long` has at most 32 bits: for a GET, POST, PUT or DELETE request
held by the worker, if the transfer is set up, libcurl delivers the body to
`writeData` in any number of chunks (each call handing over `size * nmemb`
bytes) and the transfer ends without error with status 200, then the worker
step makes that one transfer and appends to the completion queue a response
owned by the request with `succeed = true`, status code 200 and body equal to
the concatenation of the chunks in arrival order. -/
theorem transfer_roundtrip (w : Nat) (run : CurlRun) (s : ClientState)
    (request : EJHttpRequest) (q : List EJHttpResponse) (hw : w ≤ 32)
    (hpc : s.s_networkThread = WorkerPc.transferring request)
    (hq : s.s_responseQueue = some q)
    (hty : request.requestType ≠ HttpRequestType.kHttpUnkown)
    (hsetup : run.setupOk = true) (hperform : run.performOk = true)
    (hgetinfo : run.getinfoOk = true) (hcode : run.infoCode = some 200)
    (hchunks : ∀ c ∈ run.writes, c.ptr.length = c.size * c.nmemb) :
    ∃ s1 response, networkThread w run s = some (s1, [Event.transfer request])
      ∧ s1.s_responseQueue = some (q ++ [response])
      ∧ response.request = request
      ∧ response.succeed = true
      ∧ response.responseCode = 200
      ∧ response.responseData = (run.writes.map (fun c => c.ptr)).flatten := by
  have hd := deliver_exact run.writes [] hchunks
  have hnot : ¬ 32 < w := Nat.not_lt.mpr hw
  unfold networkThread
  rw [hpc]
  simp only [hq]
  unfold networkThread.process processGetTask processPostTask processPutTask processDeleteTask
    processTask CURLRaii.perform
  cases hreq : request.requestType <;> first | exact absurd hreq hty | skip
  all_goals
    simp [hsetup, hperform, hgetinfo, hcode, hd, hnot, EJHttpResponse.new]

theorem pred_mod (m k : Nat) (hm : 0 < m) (h : (k + 1) % m ≠ 0) :
    (k + 1) % m - 1 = k % m := by
  have hlt := Nat.mod_lt (k + 1) hm
  have hdiv := Nat.div_add_mod (k + 1) m
  generalize hq : m * ((k + 1) / m) = q at hdiv
  generalize hr : (k + 1) % m = r at hdiv hlt h ⊢
  have hk : k = q + (r - 1) := by omega
  rw [hk, ← hq, Nat.mul_add_mod, Nat.mod_eq_of_lt (by omega)]

theorem fresh_counted (w : Nat) : ClientState.fresh.Counted w := by
  refine ⟨rfl, by decide, by decide, by decide, ?_⟩
  show 0 = 0 % 2 ^ w
  rw [Nat.zero_mod]

/-- Any step other than a shutdown request, whose transfer (if it makes one)
does not fault, does not fault and keeps an initialised client counted. -/
theorem step_counted_of (w : Nat) (a : Action) (s : ClientState)
    (hs : s.Counted w) (ha : a ≠ Action.shutdown)
    (hproc : ∀ run request, a = Action.worker run →
      s.s_networkThread = WorkerPc.transferring request →
      ∃ p, networkThread.process w run request s.s_errorBuffer = some p) :
    ∃ s1 evs, step w a s = some (s1, evs) ∧ s1.Counted w := by
  obtain ⟨hquit, hq, hp, hpc, hc⟩ := hs
  have hpos : 0 < 2 ^ w := Nat.two_pow_pos w
  cases hqq : s.s_requestQueue with
  | none => exact absurd hqq hq
  | some q =>
    cases hpp : s.s_responseQueue with
    | none => exact absurd hpp hp
    | some p =>
      cases a with
      | shutdown => exact absurd rfl ha
      | send request =>
        cases request with
        | none =>
          refine ⟨s, [], ?_, hquit, hq, hp, hpc, hc⟩
          simp [step, EJHttpClient.send, EJHttpClient.lazyInitThreadSemphore, hqq]
        | some r =>
          refine ⟨{ s with s_asyncRequestCount := (s.s_asyncRequestCount + 1) % 2 ^ w,
                           s_requestQueue := some (q ++ [r]) }, [], ?_, hquit, by simp,
            hp, hpc, ?_⟩
          · simp [step, EJHttpClient.send, EJHttpClient.lazyInitThreadSemphore, hqq]
          · simp only [ClientState.outstanding, ClientState.pending, ClientState.completed,
              ClientState.inFlight, hqq, hpp, Option.getD_some, List.length_append,
              List.length_singleton] at hc ⊢
            rw [hc, Nat.mod_add_mod]
            congr 1
            omega
      | worker run =>
        cases hthr : s.s_networkThread with
        | absent => exact absurd hthr hpc
        | loopHead =>
          refine ⟨{ s with s_networkThread := WorkerPc.dequeuing }, [], ?_, hquit, hq, hp,
            by simp, ?_⟩
          · simp [step, networkThread, hthr, hquit]
          · simp only [ClientState.outstanding, ClientState.pending, ClientState.completed,
              ClientState.inFlight, hthr] at hc ⊢
            exact hc
        | dequeuing =>
          cases q with
          | nil =>
            refine ⟨{ s with s_networkThread := WorkerPc.loopHead }, [], ?_, hquit, hq, hp,
              by simp, ?_⟩
            · simp [step, networkThread, hthr, hqq]
            · simp only [ClientState.outstanding, ClientState.pending, ClientState.completed,
                ClientState.inFlight, hthr] at hc ⊢
              exact hc
          | cons r rest =>
            refine ⟨{ s with s_requestQueue := some rest,
                             s_networkThread := WorkerPc.transferring r }, [], ?_, hquit,
              by simp, hp, by simp, ?_⟩
            · simp [step, networkThread, hthr, hqq]
            · simp only [ClientState.outstanding, ClientState.pending, ClientState.completed,
                ClientState.inFlight, hqq, hpp, hthr, Option.getD_some, List.length_cons]
                at hc ⊢
              rw [hc]
              congr 1
              omega
        | transferring request =>
          obtain ⟨t, ht⟩ := hproc run request rfl hthr
          refine ⟨{ s with s_responseQueue := some (p ++ [t.1]),
                           s_errorBuffer := t.2.1,
                           s_networkThread := WorkerPc.loopHead },
            t.2.2, ?_, hquit, hq, by simp, by simp, ?_⟩
          · simp [step, networkThread, hthr, hpp, ht]
          · simp only [ClientState.outstanding, ClientState.pending, ClientState.completed,
              ClientState.inFlight, hqq, hpp, hthr, Option.getD_some, List.length_append,
              List.length_singleton] at hc ⊢
            rw [hc]
            congr 1
      | poll =>
        by_cases hz : s.s_asyncRequestCount = 0
        · refine ⟨s, [], ?_, hquit, hq, hp, hpc, hc⟩
          simp [step, EJHttpClient.dispatchResponseCallbacks, hz]
        · cases p with
          | nil =>
            refine ⟨s, [], ?_, hquit, hq, hp, hpc, hc⟩
            simp [step, EJHttpClient.dispatchResponseCallbacks, hz, hpp]
          | cons h rest =>
            have hcount : s.s_asyncRequestCount - 1
                = (q.length + rest.length + s.inFlight) % 2 ^ w := by
              simp only [ClientState.outstanding, ClientState.pending, ClientState.completed,
                hqq, hpp, Option.getD_some, List.length_cons] at hc
              have e : q.length + (rest.length + 1) + s.inFlight
                  = (q.length + rest.length + s.inFlight) + 1 := by omega
              rw [e] at hc
              rw [hc] at hz ⊢
              exact pred_mod _ _ hpos hz
            have hinf : ∀ (c : Nat) (pq : Option (List EJHttpResponse)),
                ({ s with s_responseQueue := pq, s_asyncRequestCount := c } : ClientState).inFlight
                  = s.inFlight := fun _ _ => rfl
            refine ⟨{ s with s_responseQueue := some rest,
                             s_asyncRequestCount := s.s_asyncRequestCount - 1 },
              (match h.request.target, h.request.selector with
               | some pTarget, some pSelector => [Event.callback pTarget pSelector h]
               | _, _ => []), ?_, hquit, hq, by simp, hpc, ?_⟩
            · simp only [step, EJHttpClient.dispatchResponseCallbacks, if_neg hz, hpp]
              cases h.request.target <;> cases h.request.selector <;> rfl
            · simp only [ClientState.outstanding, ClientState.pending, ClientState.completed,
                hqq, Option.getD_some, hinf]
              exact hcount

/-- Any step other than a shutdown request that does not fault keeps an
initialised client counted. -/
theorem step_counted (w : Nat) (a : Action) (s s1 : ClientState) (evs : List Event)
    (hs : s.Counted w) (ha : a ≠ Action.shutdown) (h : step w a s = some (s1, evs)) :
    s1.Counted w := by
  have hproc : ∀ run request, a = Action.worker run →
      s.s_networkThread = WorkerPc.transferring request →
      ∃ p, networkThread.process w run request s.s_errorBuffer = some p := by
    intro run request harun hpc
    subst harun
    rcases networkThread_cases w run s s1 evs h with
      ⟨h0, _⟩ | ⟨h0, _⟩ | ⟨h0, _⟩ | ⟨h0, _⟩ | ⟨_, _, h0, _⟩ | ⟨r, p, _, h0, hp, _⟩
    · rw [hpc] at h0
      cases h0
    · rw [hpc] at h0
      cases h0
    · rw [hpc] at h0
      cases h0
    · rw [hpc] at h0
      cases h0
    · rw [hpc] at h0
      cases h0
    · rw [hpc] at h0
      cases h0
      exact ⟨p, hp⟩
  obtain ⟨s2, evs2, h2, hc⟩ := step_counted_of w a s hs ha hproc
  rw [h] at h2
  cases h2
  exact hc

/-- A step is free of the overrun of `responseCode` when `long` has at most 32
bits, or when it is not a worker step whose transfer gets as far as
`curl_easy_getinfo`. -/
theorem step_total (w : Nat) (a : Action) (s : ClientState)
    (hs : s.Counted w) (ha : a ≠ Action.shutdown)
    (hsafe : w ≤ 32 ∨ ∀ run, a = Action.worker run →
      run.setupOk = false ∨ run.performOk = false) :
    ∃ s1 evs, step w a s = some (s1, evs) ∧ s1.Counted w := by
  refine step_counted_of w a s hs ha ?_
  intro run request harun _
  exact process_safe w run request s.s_errorBuffer (hsafe.imp id (fun h => h run harun))

/-- Every state reached by an execution without a shutdown request, started in
a counted state, is counted. -/
theorem exec_counted (w : Nat) (acts : List Action) (s s1 : ClientState)
    (hs : s.Counted w) (hno : ∀ a ∈ acts, a ≠ Action.shutdown)
    (h : (exec w acts s).2 = some s1) : s1.Counted w := by
  induction acts generalizing s with
  | nil =>
    simp [exec] at h
    subst h
    exact hs
  | cons a rest ih =>
    unfold exec at h
    cases hstep : step w a s with
    | none => simp [hstep] at h
    | some r =>
      obtain ⟨s2, evs⟩ := r
      simp only [hstep] at h
      exact ih s2
        (step_counted w a s s2 evs hs (hno a (List.mem_cons_self a rest)) hstep)
        (fun b hb => hno b (List.mem_cons_of_mem a hb)) h

/-- An execution without a shutdown request, started in a counted state, runs
to its end without a fault when `long` has at most 32 bits, or when none of
its worker steps is given a transfer that gets as far as `curl_easy_getinfo`. -/
theorem exec_total (w : Nat) (acts : List Action) (s : ClientState)
    (hs : s.Counted w) (hno : ∀ a ∈ acts, a ≠ Action.shutdown)
    (hsafe : w ≤ 32 ∨ ∀ run, Action.worker run ∈ acts →
      run.setupOk = false ∨ run.performOk = false) :
    ∃ s1, (exec w acts s).2 = some s1 := by
  induction acts generalizing s with
  | nil => exact ⟨s, rfl⟩
  | cons a rest ih =>
    have hsafe1 : w ≤ 32 ∨ ∀ run, a = Action.worker run →
        run.setupOk = false ∨ run.performOk = false :=
      hsafe.imp id (fun h run harun => h run (by rw [harun]; exact List.mem_cons_self _ rest))
    obtain ⟨s1, evs, hstep, h1⟩ :=
      step_total w a s hs (hno a (List.mem_cons_self a rest)) hsafe1
    obtain ⟨s2, h2⟩ := ih s1 h1 (fun b hb => hno b (List.mem_cons_of_mem a hb))
      (hsafe.imp id (fun h run hrun => h run (List.mem_cons_of_mem a hrun)))
    refine ⟨s2, ?_⟩
    simp only [exec, hstep]
    exact h2

/-- After `n` submissions of `r` and nothing else, the pending queue has grown by
`n` copies of `r` and the counter by `n` modulo `2 ^ w`. -/
theorem exec_sends (w : Nat) (r : EJHttpRequest) (n : Nat) (s : ClientState)
    (q : List EJHttpRequest) (hq : s.s_requestQueue = some q)
    (hc : s.s_asyncRequestCount < 2 ^ w) :
    ∃ s1, (exec w (List.replicate n (Action.send (some r))) s).2 = some s1
      ∧ s1.s_requestQueue = some (q ++ List.replicate n r)
      ∧ s1.s_responseQueue = s.s_responseQueue
      ∧ s1.s_networkThread = s.s_networkThread
      ∧ s1.s_asyncRequestCount = (s.s_asyncRequestCount + n) % 2 ^ w := by
  induction n generalizing s q with
  | zero =>
    refine ⟨s, rfl, by simp [hq], rfl, rfl, ?_⟩
    rw [Nat.add_zero, Nat.mod_eq_of_lt hc]
  | succ n ih =>
    have hpos : 0 < 2 ^ w := Nat.two_pow_pos w
    have hstep : step w (Action.send (some r)) s
        = some ({ s with s_asyncRequestCount := (s.s_asyncRequestCount + 1) % 2 ^ w,
                         s_requestQueue := some (q ++ [r]) }, []) := by
      simp [step, EJHttpClient.send, EJHttpClient.lazyInitThreadSemphore, hq]
    obtain ⟨s1, h1, h2, h3, h4, h5⟩ :=
      ih { s with s_asyncRequestCount := (s.s_asyncRequestCount + 1) % 2 ^ w,
                  s_requestQueue := some (q ++ [r]) } (q ++ [r]) rfl (Nat.mod_lt _ hpos)
    refine ⟨s1, ?_, ?_, h3, h4, ?_⟩
    · rw [List.replicate_succ]
      simp only [exec, hstep]
      exact h1
    · rw [h2, List.replicate_succ, List.append_assoc]
      rfl
    · rw [h5]
      show ((s.s_asyncRequestCount + 1) % 2 ^ w + n) % 2 ^ w = _
      rw [Nat.mod_add_mod]
      congr 1
      omega

theorem completionCalls_le (self : Nat) (evs : List Event) :
    completionCalls self evs ≤ (callbackAddrs evs).length := by
  induction evs with
  | nil => simp [completionCalls, callbackAddrs]
  | cons e rest ih =>
    cases e with
    | transfer r => simpa [completionCalls, callbackAddrs] using ih
    | callback t sel r =>
      cases sel with
      | onHttpRequestCompleted =>
        simp only [completionCalls, callbackAddrs, List.length_cons]
        split <;> omega
      | other id =>
        simp only [completionCalls, callbackAddrs, List.length_cons]
        omega

theorem completionCalls_append (self : Nat) (a b : List Event) :
    completionCalls self (a ++ b) = completionCalls self a + completionCalls self b := by
  induction a with
  | nil => simp [completionCalls]
  | cons e rest ih =>
    cases e with
    | transfer r => simpa [completionCalls] using ih
    | callback t sel r =>
      cases sel with
      | onHttpRequestCompleted =>
        rw [List.cons_append]
        simp only [completionCalls]
        rw [ih]
        omega
      | other id => simpa [completionCalls] using ih

theorem onHttpRequestCompleted_frame (x : EJBindingHttpRequest)
    (data : Option EJHttpResponse) :
    (x.onHttpRequestCompleted data).1.connection = x.connection
      ∧ (x.onHttpRequestCompleted data).1.self = x.self := by
  unfold EJBindingHttpRequest.onHttpRequestCompleted
  cases data with
  | none => exact ⟨rfl, rfl⟩
  | some r => cases hs : r.succeed <;> simp [hs]

theorem deliver_frame (W : World) (e : Event) :
    (W.deliver e).client = W.client
      ∧ (W.deliver e).s_pHttpClient = W.s_pHttpClient
      ∧ (W.deliver e).xhr.connection = W.xhr.connection
      ∧ (W.deliver e).xhr.self = W.xhr.self := by
  cases e with
  | transfer r => exact ⟨rfl, rfl, rfl, rfl⟩
  | callback t sel r =>
    cases sel with
    | other id => exact ⟨rfl, rfl, rfl, rfl⟩
    | onHttpRequestCompleted =>
      obtain ⟨h1, h2⟩ := onHttpRequestCompleted_frame W.xhr (some r)
      by_cases ht : t = W.xhr.self
      · simp [World.deliver, ht, h1, h2]
      · simp [World.deliver, ht]

theorem deliverAll_frame (evs : List Event) (W : World) :
    (evs.foldl World.deliver W).client = W.client
      ∧ (evs.foldl World.deliver W).s_pHttpClient = W.s_pHttpClient
      ∧ (evs.foldl World.deliver W).xhr.connection = W.xhr.connection
      ∧ (evs.foldl World.deliver W).xhr.self = W.xhr.self := by
  induction evs generalizing W with
  | nil => exact ⟨rfl, rfl, rfl, rfl⟩
  | cons e rest ih =>
    obtain ⟨h1, h2, h3, h4⟩ := deliver_frame W e
    obtain ⟨k1, k2, k3, k4⟩ := ih (W.deliver e)
    rw [List.foldl_cons]
    exact ⟨k1.trans h1, k2.trans h2, k3.trans h3, k4.trans h4⟩

theorem func_open_two (x : EJBindingHttpRequest) (a0 a1 : JSValue) (rest : List JSValue) :
    (x._func_open (a0 :: a1 :: rest)).2 = x.connection.isSome
      ∧ (x._func_open (a0 :: a1 :: rest)).1.connection = none
      ∧ (x._func_open (a0 :: a1 :: rest)).1.self = x.self := by
  unfold EJBindingHttpRequest._func_open
  refine ⟨rfl, ?_, ?_⟩
  · simp only []
    split <;> rfl
  · simp only []
    split <;> rfl

/-- A `send` that returns adds at most one outstanding request. -/
theorem send_outstanding (w : Nat) (s s1 : ClientState) (request : Option EJHttpRequest)
    (h : EJHttpClient.send w s request = some s1) :
    s1.outstanding ≤ s.outstanding + 1 := by
  unfold EJHttpClient.send EJHttpClient.lazyInitThreadSemphore at h
  cases hq : s.s_requestQueue with
  | none =>
    cases request with
    | none =>
      simp [hq] at h
      subst h
      simp [ClientState.outstanding, ClientState.pending, ClientState.completed,
        ClientState.inFlight]
    | some r =>
      simp [hq] at h
      subst h
      simp [ClientState.outstanding, ClientState.pending, ClientState.completed,
        ClientState.inFlight]
  | some q =>
    cases request with
    | none =>
      simp [hq] at h
      subst h
      omega
    | some r =>
      simp [hq] at h
      subst h
      simp only [ClientState.outstanding, ClientState.pending, ClientState.completed,
        ClientState.inFlight, hq, Option.getD_some, List.length_append, List.length_singleton]
      omega

/-- A step of the worker invokes no completion handler and does not raise the
number of outstanding requests. -/
theorem networkThread_outstanding (w : Nat) (run : CurlRun) (s s1 : ClientState)
    (evs : List Event) (h : networkThread w run s = some (s1, evs)) :
    callbackAddrs evs = [] ∧ s1.outstanding ≤ s.outstanding := by
  rcases networkThread_cases w run s s1 evs h with
    ⟨_, h1, h2⟩ | ⟨_, _, _, h1, h2⟩ | ⟨hpc, _, h1, h2⟩ | ⟨hpc, _, h1, h2⟩
      | ⟨r, rest, hpc, hq, h1, h2⟩ | ⟨request, p, q, hpc, hproc, hq, h1, h2⟩
  · subst h1 h2
    exact ⟨rfl, Nat.le_refl _⟩
  · subst h1 h2
    refine ⟨rfl, ?_⟩
    simp [ClientState.outstanding, ClientState.pending, ClientState.completed,
      ClientState.inFlight]
  · subst h1 h2
    refine ⟨rfl, ?_⟩
    simp [ClientState.outstanding, ClientState.pending, ClientState.completed,
      ClientState.inFlight, hpc]
  · subst h1 h2
    refine ⟨rfl, ?_⟩
    simp [ClientState.outstanding, ClientState.pending, ClientState.completed,
      ClientState.inFlight, hpc]
  · subst h1 h2
    refine ⟨rfl, ?_⟩
    simp only [ClientState.outstanding, ClientState.pending, ClientState.completed,
      ClientState.inFlight, hpc, hq, Option.getD_some, List.length_cons]
    omega
  · subst h1 h2
    refine ⟨process_no_callback w run request s.s_errorBuffer p hproc, ?_⟩
    simp only [ClientState.outstanding, ClientState.pending, ClientState.completed,
      ClientState.inFlight, hpc, hq, Option.getD_some, List.length_append,
      List.length_singleton]
    omega

/-- Every completion handler a poll invokes takes one request off the
outstanding ones. -/
theorem dispatch_outstanding (s s1 : ClientState) (evs : List Event)
    (h : EJHttpClient.dispatchResponseCallbacks s = some (s1, evs)) :
    (callbackAddrs evs).length + s1.outstanding ≤ s.outstanding := by
  unfold EJHttpClient.dispatchResponseCallbacks at h
  by_cases hc : s.s_asyncRequestCount = 0
  · simp [hc] at h
    obtain ⟨h1, h2⟩ := h
    subst h1 h2
    simp [callbackAddrs]
  · rw [if_neg hc] at h
    cases hp : s.s_responseQueue with
    | none => simp [hp] at h
    | some p =>
      cases p with
      | nil =>
        simp [hp] at h
        obtain ⟨h1, h2⟩ := h
        subst h1 h2
        simp [callbackAddrs]
      | cons r rest =>
        rw [hp] at h
        cases ht : r.request.target <;> cases hs : r.request.selector <;>
          simp [ht, hs] at h <;> obtain ⟨h1, h2⟩ := h <;> subst h1 h2 <;>
          simp only [callbackAddrs, ClientState.outstanding, ClientState.pending,
            ClientState.completed, ClientState.inFlight, hp, Option.getD_some,
            List.length_cons, List.length_nil] <;> omega

/-- Releasing the client, whether or not that destroys it, leaves the queues
and the worker as they are. -/
theorem releaseIf_outstanding (released : Bool) (c c1 : ClientState) (p p1 : Option Nat)
    (h : releaseIf released c p = some (c1, p1)) : c1.outstanding = c.outstanding := by
  unfold releaseIf at h
  cases released with
  | false =>
    simp at h
    rw [← h.1]
  | true =>
    simp only [if_true, EJHttpClient.release] at h
    cases p with
    | none => simp at h
    | some n =>
      by_cases hn : n ≤ 1
      · simp [hn] at h
        rw [← h.1]
        rfl
      · simp [hn] at h
        rw [← h.1]

theorem sendCalls_append (l1 l2 : List ScriptAction) :
    sendCalls (l1 ++ l2) = sendCalls l1 + sendCalls l2 := by
  induction l1 with
  | nil => simp [sendCalls]
  | cons a rest ih =>
    rw [List.cons_append]
    cases a with
    | callSend newAddr =>
      simp only [sendCalls, ih]
      omega
    | callOpen argv => simpa only [sendCalls] using ih
    | worker run => simpa only [sendCalls] using ih
    | poll => simpa only [sendCalls] using ih

theorem sendCalls_client (acts : List ScriptAction)
    (h : ∀ a ∈ acts, a.isClientStep = true) : sendCalls acts = 0 := by
  induction acts with
  | nil => rfl
  | cons a rest ih =>
    have ha := h a (List.mem_cons_self a rest)
    have hrest := ih (fun b hb => h b (List.mem_cons_of_mem a hb))
    cases a <;> simp [ScriptAction.isClientStep] at ha <;> simpa [sendCalls] using hrest

/-- One step of the program around a binding object keeps the address of the
object, and the runs of its completion handler the step causes, together with
the requests outstanding after it, are at most the requests outstanding
before it plus the one a `send` submits. -/
theorem World.step_outstanding (w : Nat) (a : ScriptAction) (W W1 : World)
    (evs : List Event) (h : World.step w a W = some (W1, evs)) :
    W1.xhr.self = W.xhr.self
      ∧ completionCalls W.xhr.self evs + W1.client.outstanding
          ≤ W.client.outstanding + sendCalls [a] := by
  cases a with
  | callOpen argv =>
    simp only [World.step, Option.map_eq_some'] at h
    obtain ⟨W2, hopen, heq⟩ := h
    obtain ⟨h1, h2⟩ := Prod.mk.inj heq
    subst h1 h2
    unfold World.callOpen at hopen
    simp only [] at hopen
    cases hrel : releaseIf (W.xhr._func_open argv).2 W.client W.s_pHttpClient with
    | none => simp [hrel] at hopen
    | some cp =>
      obtain ⟨c, p⟩ := cp
      simp [hrel] at hopen
      subst hopen
      have ho := releaseIf_outstanding _ _ _ _ _ hrel
      refine ⟨?_, ?_⟩
      · show (W.xhr._func_open argv).1.self = W.xhr.self
        match argv with
        | [] => rfl
        | [_] => rfl
        | a0 :: a1 :: rest => exact (func_open_two W.xhr a0 a1 rest).2.2
      · show completionCalls W.xhr.self [] + c.outstanding ≤ _
        simp only [completionCalls, sendCalls]
        omega
  | callSend newAddr =>
    simp only [World.step, Option.map_eq_some'] at h
    obtain ⟨W2, hsend, heq⟩ := h
    obtain ⟨h1, h2⟩ := Prod.mk.inj heq
    subst h1 h2
    unfold EJBindingHttpRequest._func_send at hsend
    cases hm : W.xhr.method with
    | none =>
      simp [hm] at hsend
      subst hsend
      refine ⟨rfl, ?_⟩
      simp only [completionCalls, sendCalls]
      omega
    | some method =>
      cases hu : W.xhr.url with
      | none =>
        simp [hm, hu] at hsend
        subst hsend
        refine ⟨rfl, ?_⟩
        simp only [completionCalls, sendCalls]
        omega
      | some url =>
        simp only [hm, hu] at hsend
        cases hrel : releaseIf W.xhr.clearConnection.2 W.client W.s_pHttpClient with
        | none => simp [hrel] at hsend
        | some cp =>
          obtain ⟨c, p⟩ := cp
          simp only [hrel] at hsend
          have ho := releaseIf_outstanding _ _ _ _ _ hrel
          cases hs : EJHttpClient.send w c
              (some { addr := newAddr, requestType := requestTypeOf method, url := url,
                      requestData := [], tag := "", headers := [],
                      target := some W.xhr.self,
                      selector := some SEL_HttpResponse.onHttpRequestCompleted }) with
          | none => simp [hs] at hsend
          | some c2 =>
            simp [hs] at hsend
            subst hsend
            have hso := send_outstanding w c c2 _ hs
            refine ⟨rfl, ?_⟩
            simp only [completionCalls, sendCalls]
            omega
  | worker run =>
    simp only [World.step] at h
    cases hn : networkThread w run W.client with
    | none => simp [hn] at h
    | some p =>
      obtain ⟨s1, evs1⟩ := p
      simp [hn] at h
      obtain ⟨h1, h2⟩ := h
      subst h1 h2
      obtain ⟨k1, k2⟩ := networkThread_outstanding w run W.client s1 evs1 hn
      have hc := completionCalls_le W.xhr.self evs1
      rw [k1] at hc
      simp only [List.length_nil, Nat.le_zero] at hc
      refine ⟨rfl, ?_⟩
      rw [hc]
      simp only [sendCalls]
      omega
  | poll =>
    simp only [World.step] at h
    cases hn : EJHttpClient.dispatchResponseCallbacks W.client with
    | none => simp [hn] at h
    | some p =>
      obtain ⟨s1, evs1⟩ := p
      simp [hn] at h
      obtain ⟨h1, h2⟩ := h
      subst h1 h2
      have k := dispatch_outstanding W.client s1 evs1 hn
      obtain ⟨f1, _, _, f4⟩ := deliverAll_frame evs1 { W with client := s1 }
      have hc := completionCalls_le W.xhr.self evs1
      rw [f1, f4]
      refine ⟨rfl, ?_⟩
      show completionCalls W.xhr.self evs1 + s1.outstanding ≤ _
      simp only [sendCalls]
      omega

/-- Over a whole execution around a binding object, its completion handler
runs at most once for each request outstanding at the start and each `send`
in the execution. -/
theorem World.exec_outstanding (w : Nat) (acts : List ScriptAction) (W : World) :
    completionCalls W.xhr.self (World.exec w acts W).1
      ≤ W.client.outstanding + sendCalls acts := by
  induction acts generalizing W with
  | nil => simp [World.exec, completionCalls]
  | cons a rest ih =>
    unfold World.exec
    cases hstep : World.step w a W with
    | none => simp [completionCalls]
    | some r =>
      obtain ⟨W1, evs⟩ := r
      obtain ⟨hself, hle⟩ := World.step_outstanding w a W W1 evs hstep
      have h2 := ih W1
      rw [hself] at h2
      have h3 := sendCalls_append [a] rest
      simp only [List.singleton_append] at h3
      simp only [completionCalls_append]
      omega

theorem func_open_result (x : EJBindingHttpRequest) (a0 a1 : JSValue) (rest : List JSValue) :
    (x._func_open (a0 :: a1 :: rest)).1
      = { self := x.self,
          method := some a0.toNSString,
          url := some a1.toNSString,
          user := (match rest with
                   | _ :: a3 :: _ :: _ => some a3.toNSString
                   | _ => none),
          password := (match rest with
                       | _ :: _ :: a4 :: _ => some a4.toNSString
                       | _ => none),
          connection := none,
          response := none,
          responseBody := none,
          requestHeaders := x.requestHeaders,
          state := EJHttpRequestState.kEJHttpRequestStateOpened,
          async := (match rest with
                    | a2 :: _ => a2.toBoolean
                    | [] => true),
          timeout := x.timeout } := by
  unfold EJBindingHttpRequest._func_open EJBindingHttpRequest.clearConnection
    EJBindingHttpRequest.clearRequest
  match rest with
  | [] => rfl
  | [_] => rfl
  | [_, _] => rfl
  | _ :: _ :: _ :: _ => rfl

theorem cString_of_no_zero (bytes : List Byte) (h : ∀ c ∈ bytes, c ≠ 0) :
    cString bytes = bytes := by
  unfold cString
  rw [List.takeWhile_eq_self_iff]
  intro c hc
  simpa using h c hc

/-- For a successful response whose body has no zero byte, the text the object
returns after the completion callback is the body. -/
theorem completed_text_without_zero (x : EJBindingHttpRequest) (r : EJHttpResponse)
    (hr : r.succeed = true) (h : ∀ c ∈ r.responseData, c ≠ 0) :
    (x.onHttpRequestCompleted (some r)).1._get_responseText = some r.responseData := by
  simp [EJBindingHttpRequest.onHttpRequestCompleted, EJBindingHttpRequest._get_responseText,
    EJBindingHttpRequest.getResponseText, hr, cString_of_no_zero r.responseData h,
    cString_of_no_zero (cString r.responseData)
      (by rw [cString_of_no_zero r.responseData h]; exact h)]

/-! ## The client facade, the worker, shutdown and the binding object -/

/-- C1 (as stated, refuted): with the counter at the largest `unsigned long`
value (32-bit and 64-bit alike), `send` of a non-null request returns with
the counter at 0: it is not the case that the counter has gone up by 1. -/
theorem send_counter_wraps_at_max :
    ((counterAtMax 32).s_asyncRequestCount = 4294967295
      ∧ (EJHttpClient.send 32 (counterAtMax 32) (some sampleRequest)).map
          (fun s => s.s_asyncRequestCount) = some 0
      ∧ ¬ ∃ s1, EJHttpClient.send 32 (counterAtMax 32) (some sampleRequest) = some s1
            ∧ s1.s_asyncRequestCount = (counterAtMax 32).s_asyncRequestCount + 1)
    ∧ ((counterAtMax 64).s_asyncRequestCount = 18446744073709551615
      ∧ (EJHttpClient.send 64 (counterAtMax 64) (some sampleRequest)).map
          (fun s => s.s_asyncRequestCount) = some 0
      ∧ ¬ ∃ s1, EJHttpClient.send 64 (counterAtMax 64) (some sampleRequest) = some s1
            ∧ s1.s_asyncRequestCount = (counterAtMax 64).s_asyncRequestCount + 1) := by
  have h32 : (EJHttpClient.send 32 (counterAtMax 32) (some sampleRequest)).map
      (fun s => s.s_asyncRequestCount) = some 0 := by decide
  have h64 : (EJHttpClient.send 64 (counterAtMax 64) (some sampleRequest)).map
      (fun s => s.s_asyncRequestCount) = some 0 := by decide
  refine ⟨⟨by decide, h32, ?_⟩, ⟨by decide, h64, ?_⟩⟩
  · rintro ⟨s1, hsend, hcount⟩
    rw [hsend] at h32
    simp only [Option.map, Option.some.injEq] at h32
    rw [h32] at hcount
    exact absurd hcount (by decide)
  · rintro ⟨s1, hsend, hcount⟩
    rw [hsend] at h64
    simp only [Option.map, Option.some.injEq] at h64
    rw [h64] at hcount
    exact absurd hcount (by decide)

/-- C1 (amended): for every width `w`, every client state whose two queue
pointers are null together and whose counter is below the largest
`unsigned long` value, and every non-null request `r`, `send r` returns
normally, raises the counter by exactly 1, appends `r` at the tail of the
pending queue keeping the earlier entries in order, and leaves the
completion queue as it was. -/
theorem send_increments_and_appends (w : Nat) (s : ClientState) (r : EJHttpRequest)
    (hq : s.s_requestQueue = none → s.s_responseQueue = none)
    (hc : s.s_asyncRequestCount + 1 < 2 ^ w) :
    ∃ s1, EJHttpClient.send w s (some r) = some s1
      ∧ s1.s_asyncRequestCount = s.s_asyncRequestCount + 1
      ∧ s1.pending = s.pending ++ [r]
      ∧ s1.completed = s.completed := by
  unfold EJHttpClient.send EJHttpClient.lazyInitThreadSemphore
  cases hreq : s.s_requestQueue with
  | none =>
    have hresp := hq hreq
    simp [ClientState.pending, ClientState.completed, hreq, hresp, Nat.mod_eq_of_lt hc]
  | some q =>
    simp [ClientState.pending, ClientState.completed, hreq, Nat.mod_eq_of_lt hc]

/-- Witness of `send_increments_and_appends`: the first `send` on the statics
as they are at program start. -/
theorem send_increments_and_appends_witness :
    ∃ s1, EJHttpClient.send 64 ClientState.initial (some sampleRequest) = some s1
      ∧ s1.s_asyncRequestCount = ClientState.initial.s_asyncRequestCount + 1
      ∧ s1.pending = ClientState.initial.pending ++ [sampleRequest]
      ∧ s1.completed = ClientState.initial.completed :=
  send_increments_and_appends 64 ClientState.initial sampleRequest (fun _ => rfl) (by decide)

/-- C2 (as stated, refuted): the counter is 1 and the head response belongs to
a request without a registered handler (null target and selector); the poll
removes the response and lowers the counter but invokes no completion
handler: it is not the case that exactly one handler is invoked. -/
theorem dispatch_without_handler_invokes_none :
    (oneCompleted bareRequest).s_asyncRequestCount = 1
      ∧ (oneCompleted bareRequest).s_responseQueue = some [okResponse bareRequest]
      ∧ EJHttpClient.dispatchResponseCallbacks (oneCompleted bareRequest)
          = some ({ oneCompleted bareRequest with
                      s_asyncRequestCount := 0, s_responseQueue := some [] }, [])
      ∧ ¬ ∃ s1 pTarget pSelector,
            EJHttpClient.dispatchResponseCallbacks (oneCompleted bareRequest)
              = some (s1, [Event.callback pTarget pSelector (okResponse bareRequest)]) := by
  have h : EJHttpClient.dispatchResponseCallbacks (oneCompleted bareRequest)
      = some ({ oneCompleted bareRequest with
                  s_asyncRequestCount := 0, s_responseQueue := some [] }, []) := by decide
  refine ⟨by decide, by decide, h, ?_⟩
  rintro ⟨s1, pTarget, pSelector, hd⟩
  rw [h] at hd
  simp at hd

/-- C2 (amended): when the counter is positive and the completion queue has
head `h`, one poll removes exactly `h` (the rest keeps its order), lowers the
counter by exactly 1, leaves the pending queue alone, and invokes the
completion handler of the owning request of `h` with `h` as argument, once,
when that request has both a target and a selector; when either is null it
invokes no handler. -/
theorem dispatch_pops_head (s : ClientState) (h : EJHttpResponse) (rest : List EJHttpResponse)
    (hc : 0 < s.s_asyncRequestCount) (hq : s.s_responseQueue = some (h :: rest)) :
    ∃ s1 evs, EJHttpClient.dispatchResponseCallbacks s = some (s1, evs)
      ∧ s1.s_responseQueue = some rest
      ∧ s1.s_asyncRequestCount + 1 = s.s_asyncRequestCount
      ∧ s1.s_requestQueue = s.s_requestQueue
      ∧ evs = (match h.request.target, h.request.selector with
               | some pTarget, some pSelector => [Event.callback pTarget pSelector h]
               | _, _ => []) := by
  have hne : s.s_asyncRequestCount ≠ 0 := Nat.pos_iff_ne_zero.mp hc
  unfold EJHttpClient.dispatchResponseCallbacks
  rw [if_neg hne, hq]
  have hsub : s.s_asyncRequestCount - 1 + 1 = s.s_asyncRequestCount := Nat.sub_add_cancel hc
  cases ht : h.request.target <;> cases hs : h.request.selector <;>
    simp only [ht, hs] <;> exact ⟨_, _, rfl, rfl, hsub, rfl, rfl⟩

/-- Witness of `dispatch_pops_head`: one queued response whose request has a
handler. -/
theorem dispatch_pops_head_witness :
    ∃ s1 evs, EJHttpClient.dispatchResponseCallbacks (oneCompleted sampleRequest) = some (s1, evs)
      ∧ s1.s_responseQueue = some []
      ∧ s1.s_asyncRequestCount + 1 = (oneCompleted sampleRequest).s_asyncRequestCount
      ∧ s1.s_requestQueue = (oneCompleted sampleRequest).s_requestQueue
      ∧ evs = (match (okResponse sampleRequest).request.target,
                     (okResponse sampleRequest).request.selector with
               | some pTarget, some pSelector =>
                 [Event.callback pTarget pSelector (okResponse sampleRequest)]
               | _, _ => []) :=
  dispatch_pops_head (oneCompleted sampleRequest) (okResponse sampleRequest) []
    (by decide) (by rfl)

/-- C3: when the counter is zero, or the completion queue exists and is empty,
a poll invokes no handler and changes nothing: counter, pending queue and
completion queue (the whole of the statics) are as before. -/
theorem dispatch_noop (s : ClientState)
    (h : s.s_asyncRequestCount = 0 ∨ s.s_responseQueue = some []) :
    EJHttpClient.dispatchResponseCallbacks s = some (s, []) := by
  unfold EJHttpClient.dispatchResponseCallbacks
  rcases h with h | h
  · rw [if_pos h]
  · rw [h]; split <;> rfl

/-- Witness of `dispatch_noop`: a freshly initialised client. -/
theorem dispatch_noop_witness :
    EJHttpClient.dispatchResponseCallbacks ClientState.fresh = some (ClientState.fresh, []) :=
  dispatch_noop ClientState.fresh (Or.inl rfl)

/-- C4 (the code at the failing input): with a 64-bit `long`, one GET request
is submitted to a freshly initialised client and the worker makes one loop
iteration in which the transfer succeeds with status 200.  The `send` returns
and leaves the request on the pending queue; the iteration does not return:
`curl_easy_getinfo` stores a `long` through the pointer to the `int32_t`
variable `responseCode` of the worker and overruns it, and no response is
queued.  With a 32-bit `long` the same request and transfer give the one
response. -/
theorem worker_stops_at_successful_transfer :
    (∃ s1, sendAll 64 ClientState.fresh [sampleRequest] = some s1
      ∧ s1.s_requestQueue = some [sampleRequest]
      ∧ s1.s_responseQueue = some []
      ∧ iterations 64 s1 [okRun] = none)
    ∧ (∃ s1 s2 evs r, sendAll 32 ClientState.fresh [sampleRequest] = some s1
      ∧ iterations 32 s1 [okRun] = some (s2, evs)
      ∧ s2.s_requestQueue = some []
      ∧ s2.s_responseQueue = some [r]
      ∧ r.request = sampleRequest) := by
  refine ⟨⟨_, rfl, rfl, rfl, by decide⟩, ⟨_, _, _, _, rfl, rfl, rfl, rfl, rfl⟩⟩

/-- C5: in every execution from program start made of `send`, worker, poll and
shutdown steps in any order (a faulting step ends it), if no request object
is submitted twice, the completion handler is invoked at most once for each
request. -/
theorem handler_at_most_once (w : Nat) (acts : List Action)
    (hsent : (sentAddrs acts).Nodup) (request : EJHttpRequest) :
    (callbackAddrs (exec w acts ClientState.initial).1).count request.addr ≤ 1 := by
  have h := exec_count w acts ClientState.initial request.addr
  have hs := List.nodup_iff_count_le_one.mp hsent request.addr
  have h0 : ClientState.initial.heldAddrs = [] := rfl
  rw [h0] at h
  simp only [List.count_nil] at h
  omega

/-- Witness of `handler_at_most_once`: an execution in which the handler of the
first request does run, once. -/
theorem handler_at_most_once_witness :
    (sentAddrs sampleActions).Nodup
      ∧ (callbackAddrs (exec 64 sampleActions ClientState.initial).1).count sampleRequest.addr = 1
      ∧ (callbackAddrs (exec 64 sampleActions ClientState.initial).1).count sampleRequest.addr
          ≤ 1 :=
  ⟨by decide, by decide, handler_at_most_once 64 sampleActions (by decide) sampleRequest⟩

/-- C6 (the code at the failing input): for a request of type `kHttpUnkown`
the worker makes no transfer at all, whatever libcurl would have done, and
still reports `succeed = true`, with status code -1 and an empty body. -/
theorem unknown_type_reported_succeeded (w : Nat) (run : CurlRun) (errorBuffer : String) :
    networkThread.process w run unknownRequest errorBuffer
      = some ({ request := unknownRequest, succeed := true, responseData := [],
                responseCode := -1, errorBuffer := "" }, errorBuffer, []) := by
  rfl

/-- C7 (the code at the failing input): with a 64-bit `long`, the worker holds
a GET request and libcurl delivers the five bytes 1 2 3 4 5 to `writeData`
in two chunks and ends the transfer without error with status 200.  The
worker step does not return: `curl_easy_getinfo` stores a `long` through the
pointer to the `int32_t` variable `responseCode` and overruns it, so no
response is queued.  With a 32-bit `long` the same step queues the response
with `succeed = true`, status code 200 and the five bytes as body. -/
theorem roundtrip_overruns_response_code :
    okRun.setupOk = true ∧ okRun.performOk = true ∧ okRun.getinfoOk = true
      ∧ okRun.infoCode = some 200
      ∧ (okRun.writes.map (fun c => c.ptr)).flatten = [1, 2, 3, 4, 5]
      ∧ networkThread 64 okRun (inTransfer sampleRequest) = none
      ∧ (∃ s1, networkThread 32 okRun (inTransfer sampleRequest)
            = some (s1, [Event.transfer sampleRequest])
          ∧ s1.s_responseQueue
              = some [{ request := sampleRequest, succeed := true,
                        responseData := [1, 2, 3, 4, 5], responseCode := 200,
                        errorBuffer := "" }]) := by
  refine ⟨rfl, rfl, rfl, rfl, by decide, by decide, ⟨_, rfl, by decide⟩⟩

/-- C8: for a GET, POST, PUT or DELETE request held by the worker, if the
transfer fails before a status is obtained (the set-up fails, or
`curl_easy_perform` returns an error), the worker step appends to the
completion queue a response owned by the request with `succeed = false`,
status code -1 and, as error message, the content of the libcurl error
buffer `s_errorBuffer` after the attempt: the text libcurl wrote there
during `curl_easy_perform` when it wrote one. -/
theorem transfer_failure_response (w : Nat) (run : CurlRun) (s : ClientState)
    (request : EJHttpRequest) (q : List EJHttpResponse)
    (hpc : s.s_networkThread = WorkerPc.transferring request)
    (hq : s.s_responseQueue = some q)
    (hty : request.requestType ≠ HttpRequestType.kHttpUnkown)
    (hfail : run.setupOk = false ∨ run.performOk = false) :
    ∃ s1 response, networkThread w run s = some (s1, [Event.transfer request])
      ∧ s1.s_responseQueue = some (q ++ [response])
      ∧ response.request = request
      ∧ response.succeed = false
      ∧ response.responseCode = -1
      ∧ response.errorBuffer = s1.s_errorBuffer
      ∧ (run.setupOk = true → ∀ e, run.errorText = some e → response.errorBuffer = e) := by
  unfold networkThread
  rw [hpc]
  simp only [hq]
  unfold networkThread.process processGetTask processPostTask processPutTask processDeleteTask
    processTask CURLRaii.perform
  cases hreq : request.requestType <;> first | exact absurd hreq hty | skip
  all_goals
    rcases hfail with hf | hf
    · simp [hf, EJHttpResponse.new]
    · cases hs : run.setupOk
      · simp [EJHttpResponse.new]
      · simp only [hf]
        refine ⟨_, _, rfl, rfl, ?_⟩
        simp [EJHttpResponse.new]
        intro e he
        simp [he]

/-- Witness of `transfer_failure_response`: the host cannot be resolved. -/
theorem transfer_failure_response_witness :
    ∃ s1 response, networkThread 64 failedRun (inTransfer sampleRequest)
        = some (s1, [Event.transfer sampleRequest])
      ∧ s1.s_responseQueue = some ([] ++ [response])
      ∧ response.request = sampleRequest
      ∧ response.succeed = false
      ∧ response.responseCode = -1
      ∧ response.errorBuffer = s1.s_errorBuffer
      ∧ (failedRun.setupOk = true →
          ∀ e, failedRun.errorText = some e → response.errorBuffer = e) :=
  transfer_failure_response 64 failedRun (inTransfer sampleRequest) sampleRequest [] rfl rfl
    (by decide) (Or.inr rfl)

/-- C9: with the stop flag set, the worker at its loop head and any number of
requests pending, the worker step leaves the loop and cleans up: it makes no
transfer and invokes no handler, the pending queue is emptied and released,
the worker is gone, and the counter keeps the value it had.  Nothing holds
the dropped requests afterwards: in every later execution a handler runs for
a request at most as often as that request is submitted again. -/
theorem shutdown_drops_pending (w : Nat) (run : CurlRun) (s : ClientState)
    (q : List EJHttpRequest) (p : List EJHttpResponse)
    (hpc : s.s_networkThread = WorkerPc.loopHead) (hquit : s.need_quit = true)
    (hq : s.s_requestQueue = some q) (hp : s.s_responseQueue = some p)
    (hc : s.s_asyncRequestCount < 2 ^ w) :
    ∃ s1, networkThread w run s = some (s1, [])
      ∧ s1.s_requestQueue = none
      ∧ s1.pending = []
      ∧ s1.s_asyncRequestCount = s.s_asyncRequestCount
      ∧ s1.s_networkThread = WorkerPc.absent
      ∧ ∀ (acts : List Action) (x : Nat),
          (callbackAddrs (exec w acts s1).1).count x ≤ (sentAddrs acts).count x := by
  have hsub : subULong w s.s_asyncRequestCount 0 = s.s_asyncRequestCount := by
    unfold subULong
    rw [Nat.zero_mod, Nat.sub_zero, Nat.add_mod_right, Nat.mod_eq_of_lt hc]
  refine ⟨{ s with s_asyncRequestCount := subULong w s.s_asyncRequestCount 0,
                   s_requestQueue := none, s_responseQueue := none,
                   s_networkThread := WorkerPc.absent }, ?_, rfl, rfl, hsub, rfl, ?_⟩
  · unfold networkThread
    rw [hpc]
    simp [hquit, hq, hp]
  · intro acts x
    have h := exec_count w acts
      { s with s_asyncRequestCount := subULong w s.s_asyncRequestCount 0,
               s_requestQueue := none, s_responseQueue := none,
               s_networkThread := WorkerPc.absent } x
    simpa [ClientState.heldAddrs, ClientState.completed, ClientState.pending] using h

/-- Witness of `shutdown_drops_pending`: two requests pending at shutdown. -/
theorem shutdown_drops_pending_witness :
    ∃ s1, networkThread 64 okRun (stopping [sampleRequest, bareRequest]) = some (s1, [])
      ∧ s1.s_requestQueue = none
      ∧ s1.pending = []
      ∧ s1.s_asyncRequestCount = (stopping [sampleRequest, bareRequest]).s_asyncRequestCount
      ∧ s1.s_networkThread = WorkerPc.absent
      ∧ ∀ (acts : List Action) (x : Nat),
          (callbackAddrs (exec 64 acts s1).1).count x ≤ (sentAddrs acts).count x :=
  shutdown_drops_pending 64 okRun (stopping [sampleRequest, bareRequest])
    [sampleRequest, bareRequest] [] rfl rfl rfl rfl (by decide)

/-- C10 (the code at the failing input): one request is sent, the client is
shut down and the worker runs its cleanup; the statics are then: counter 1,
both queue pointers null, no worker.  The next poll passes the counter test
and calls `count()` through the null `s_responseQueue`: it faults. -/
theorem poll_after_shutdown_faults :
    (exec 64 [Action.send (some sampleRequest), Action.shutdown, Action.worker okRun]
        ClientState.initial).2
      = some { s_asyncRequestCount := 1, need_quit := true, s_requestQueue := none,
               s_responseQueue := none, s_errorBuffer := "",
               s_networkThread := WorkerPc.absent }
    ∧ EJHttpClient.dispatchResponseCallbacks
        { s_asyncRequestCount := 1, need_quit := true, s_requestQueue := none,
          s_responseQueue := none, s_errorBuffer := "",
          s_networkThread := WorkerPc.absent } = none := by
  decide

/-- C11 (as stated, refuted): on a facade that was never initialised,
`send(NULL)` creates both queues and starts the worker; on one whose worker has
shut down it does the same and also clears the stop flag.  The
initialisation state is not left unchanged. -/
theorem send_null_initialises :
    (ClientState.initial.s_requestQueue = none
      ∧ ClientState.initial.s_networkThread = WorkerPc.absent
      ∧ EJHttpClient.send 64 ClientState.initial none
          = some { ClientState.initial with s_requestQueue := some [],
                                            s_responseQueue := some [],
                                            s_networkThread := WorkerPc.loopHead }
      ∧ EJHttpClient.send 64 ClientState.initial none ≠ some ClientState.initial)
    ∧ (afterShutdown.need_quit = true
      ∧ EJHttpClient.send 64 afterShutdown none
          = some { afterShutdown with s_requestQueue := some [],
                                      s_responseQueue := some [],
                                      s_networkThread := WorkerPc.loopHead,
                                      need_quit := false }
      ∧ EJHttpClient.send 64 afterShutdown none ≠ some afterShutdown) := by
  decide

/-- C11 (amended): for every client state whose two queue pointers are null
together, `send(NULL)` returns normally and leaves the counter and the
contents of the pending and completion queues unchanged.  On an initialised
facade it changes nothing at all.  On an uninitialised one it performs the
lazy initialisation and nothing else: both queues are created empty, the
worker is started and the stop flag is cleared. -/
theorem send_null_effect (w : Nat) (s : ClientState)
    (hq : s.s_requestQueue = none → s.s_responseQueue = none) :
    ∃ s1, EJHttpClient.send w s none = some s1
      ∧ s1.s_asyncRequestCount = s.s_asyncRequestCount
      ∧ s1.pending = s.pending
      ∧ s1.completed = s.completed
      ∧ (s.s_requestQueue ≠ none → s1 = s)
      ∧ (s.s_requestQueue = none →
          s1 = { s with s_requestQueue := some [], s_responseQueue := some [],
                        s_networkThread := WorkerPc.loopHead, need_quit := false }) := by
  unfold EJHttpClient.send EJHttpClient.lazyInitThreadSemphore
  cases hreq : s.s_requestQueue with
  | none =>
    have hresp := hq hreq
    simp [ClientState.pending, ClientState.completed, hreq, hresp]
  | some q =>
    simp [ClientState.pending, ClientState.completed, hreq]

/-- Witness of `send_null_effect`: a client with one response waiting. -/
theorem send_null_effect_witness :
    ∃ s1, EJHttpClient.send 64 (oneCompleted sampleRequest) none = some s1
      ∧ s1.s_asyncRequestCount = (oneCompleted sampleRequest).s_asyncRequestCount
      ∧ s1.pending = (oneCompleted sampleRequest).pending
      ∧ s1.completed = (oneCompleted sampleRequest).completed
      ∧ ((oneCompleted sampleRequest).s_requestQueue ≠ none → s1 = oneCompleted sampleRequest)
      ∧ ((oneCompleted sampleRequest).s_requestQueue = none →
          s1 = { oneCompleted sampleRequest with
                   s_requestQueue := some [], s_responseQueue := some [],
                   s_networkThread := WorkerPc.loopHead, need_quit := false }) :=
  send_null_effect 64 (oneCompleted sampleRequest) (fun h => absurd h (by decide))

/-- C12: on a binding object whose `method` or `url` is null (no `open` has set
both), the script-level `send` returns at once: no request is built or handed
to the client, the client statics (counter, queues, worker), the singleton,
the object and the list of fired events are all unchanged. -/
theorem send_before_open_rejected (w : Nat) (W : World) (newAddr : Nat)
    (h : W.xhr.method = none ∨ W.xhr.url = none) :
    EJBindingHttpRequest._func_send w W newAddr = some W
      ∧ World.step w (ScriptAction.callSend newAddr) W = some (W, []) := by
  have h1 : EJBindingHttpRequest._func_send w W newAddr = some W := by
    unfold EJBindingHttpRequest._func_send
    rcases h with h | h
    · rw [h]
    · rw [h]
      cases W.xhr.method <;> rfl
  exact ⟨h1, by simp [World.step, h1]⟩

/-- Witness of `send_before_open_rejected`: a newly constructed object. -/
theorem send_before_open_rejected_witness :
    EJBindingHttpRequest._func_send 64 (World.initial 7) 10 = some (World.initial 7)
      ∧ World.step 64 (ScriptAction.callSend 10) (World.initial 7)
          = some (World.initial 7, []) :=
  send_before_open_rejected 64 (World.initial 7) 10 (Or.inl rfl)

/-- C13 (as stated, refuted): an object is opened for GET and sent, so it is in
state LOADING with its connection set; `open("POST", ...)` is then not
rejected: the state becomes OPENED, method and url are replaced and the
connection is cleared (and the release of the client sets `need_quit`). -/
theorem open_while_loading_resets :
    (∃ W, (World.exec 64 [ScriptAction.callOpen getArgs, ScriptAction.callSend 10]
              (World.initial 7)).2 = some W
        ∧ W.xhr.state = EJHttpRequestState.kEJHttpRequestStateLoading
        ∧ W.xhr.method = some "GET"
        ∧ W.xhr.url = some "http://example.org/a"
        ∧ W.xhr.connection = some ()
        ∧ W.client.need_quit = false)
    ∧ (∃ W, (World.exec 64 [ScriptAction.callOpen getArgs, ScriptAction.callSend 10,
                            ScriptAction.callOpen postArgs] (World.initial 7)).2 = some W
        ∧ W.xhr.state = EJHttpRequestState.kEJHttpRequestStateOpened
        ∧ W.xhr.method = some "POST"
        ∧ W.xhr.url = some "http://example.org/b"
        ∧ W.xhr.connection = none
        ∧ W.client.need_quit = true) := by
  constructor
  · exact ⟨_, rfl, by decide, by decide, by decide, by decide, by decide⟩
  · exact ⟨_, rfl, by decide, by decide, by decide, by decide, by decide⟩

/-- C13 (amended): in every state of the object, LOADING included, `open` with
fewer than two arguments is a no-op, and `open` with two or more arguments is
carried out: it clears the connection, the stored response and body and the
request fields, stores the new method and url (and user and password when
more than four arguments are given), sets `async`, and puts the object in
state OPENED. -/
theorem open_effect (x : EJBindingHttpRequest) (a0 a1 : JSValue) (rest : List JSValue) :
    (x._func_open []).1 = x
      ∧ (x._func_open [a0]).1 = x
      ∧ (x._func_open (a0 :: a1 :: rest)).1
          = { self := x.self,
              method := some a0.toNSString,
              url := some a1.toNSString,
              user := (match rest with
                       | _ :: a3 :: _ :: _ => some a3.toNSString
                       | _ => none),
              password := (match rest with
                           | _ :: _ :: a4 :: _ => some a4.toNSString
                           | _ => none),
              connection := none,
              response := none,
              responseBody := none,
              requestHeaders := x.requestHeaders,
              state := EJHttpRequestState.kEJHttpRequestStateOpened,
              async := (match rest with
                        | a2 :: _ => a2.toBoolean
                        | [] => true),
              timeout := x.timeout } := by
  exact ⟨rfl, rfl, func_open_result x a0 a1 rest⟩

/-- C14 (as stated, refuted): an opened object is sent; the worker transfers
the request, goes back to its loop head and passes the test of `need_quit`.
Then `send` is called again, before any completion was delivered (no run of
the handler so far); the worker, already past its test, dequeues and
transfers the second request as well.  Two polls then run the completion
handler `onHttpRequestCompleted` of the object twice, once per `send`, and
nothing faults. -/
theorem second_send_two_completions :
    (∀ a ∈ [ScriptAction.worker okRun, ScriptAction.worker okRun, ScriptAction.poll,
            ScriptAction.poll], a.isClientStep = true)
      ∧ completionCalls 7
          (World.exec 32
            (ScriptAction.callSend 10
              :: [ScriptAction.worker okRun, ScriptAction.worker okRun,
                  ScriptAction.worker okRun, ScriptAction.worker okRun])
            { World.initial 7 with xhr := ((World.initial 7).xhr._func_open getArgs).1 }).1 = 0
      ∧ completionCalls 7
          (World.exec 32
            ((ScriptAction.callSend 10
                :: [ScriptAction.worker okRun, ScriptAction.worker okRun,
                    ScriptAction.worker okRun, ScriptAction.worker okRun])
              ++ (ScriptAction.callSend 11
                    :: [ScriptAction.worker okRun, ScriptAction.worker okRun,
                        ScriptAction.poll, ScriptAction.poll]))
            { World.initial 7 with xhr := ((World.initial 7).xhr._func_open getArgs).1 }).1 = 2
      ∧ (World.exec 32
            ((ScriptAction.callSend 10
                :: [ScriptAction.worker okRun, ScriptAction.worker okRun,
                    ScriptAction.worker okRun, ScriptAction.worker okRun])
              ++ (ScriptAction.callSend 11
                    :: [ScriptAction.worker okRun, ScriptAction.worker okRun,
                        ScriptAction.poll, ScriptAction.poll]))
            { World.initial 7 with xhr := ((World.initial 7).xhr._func_open getArgs).1 }).2
          ≠ none := by
  refine ⟨by decide, by decide, by decide, by decide⟩

/-- C14 (amended): for every binding object of a program in which no request
is outstanding, if `send` is called on the object, then again after any
worker steps and polls, then over every later sequence of worker steps and
polls the completion handler `onHttpRequestCompleted` of the object runs at
most once per `send`: at most once before the second `send` and at most
twice in total. -/
theorem completion_once_per_send (w : Nat) (W : World) (a1 a2 : Nat)
    (acts1 acts2 : List ScriptAction)
    (hidle : W.client.outstanding = 0)
    (hacts1 : ∀ a ∈ acts1, a.isClientStep = true)
    (hacts2 : ∀ a ∈ acts2, a.isClientStep = true) :
    completionCalls W.xhr.self (World.exec w (ScriptAction.callSend a1 :: acts1) W).1 ≤ 1
      ∧ completionCalls W.xhr.self
          (World.exec w ((ScriptAction.callSend a1 :: acts1)
            ++ (ScriptAction.callSend a2 :: acts2)) W).1 ≤ 2 := by
  have h1 := World.exec_outstanding w (ScriptAction.callSend a1 :: acts1) W
  have h2 := World.exec_outstanding w
    ((ScriptAction.callSend a1 :: acts1) ++ (ScriptAction.callSend a2 :: acts2)) W
  have k1 := sendCalls_client acts1 hacts1
  have k2 := sendCalls_client acts2 hacts2
  rw [sendCalls_append] at h2
  simp only [sendCalls, k1, k2, hidle] at h1 h2
  exact ⟨by omega, by omega⟩

/-- Witness of `completion_once_per_send`: the first completion is delivered
before the second `send`, the second one after it. -/
theorem completion_once_per_send_witness :
    completionCalls 7
        (World.exec 64
          ((ScriptAction.callSend 10
              :: [ScriptAction.worker failedRun, ScriptAction.worker failedRun,
                  ScriptAction.worker failedRun, ScriptAction.worker failedRun,
                  ScriptAction.poll])
            ++ (ScriptAction.callSend 11
                  :: [ScriptAction.worker failedRun, ScriptAction.worker failedRun,
                      ScriptAction.poll]))
          { World.initial 7 with xhr := ((World.initial 7).xhr._func_open getArgs).1 }).1 = 2
    ∧ (completionCalls 7
        (World.exec 64
          (ScriptAction.callSend 10
            :: [ScriptAction.worker failedRun, ScriptAction.worker failedRun,
                ScriptAction.worker failedRun, ScriptAction.worker failedRun,
                ScriptAction.poll])
          { World.initial 7 with xhr := ((World.initial 7).xhr._func_open getArgs).1 }).1 ≤ 1
      ∧ completionCalls 7
        (World.exec 64
          ((ScriptAction.callSend 10
              :: [ScriptAction.worker failedRun, ScriptAction.worker failedRun,
                  ScriptAction.worker failedRun, ScriptAction.worker failedRun,
                  ScriptAction.poll])
            ++ (ScriptAction.callSend 11
                  :: [ScriptAction.worker failedRun, ScriptAction.worker failedRun,
                      ScriptAction.poll]))
          { World.initial 7 with xhr := ((World.initial 7).xhr._func_open getArgs).1 }).1 ≤ 2) :=
  ⟨by decide,
   completion_once_per_send 64
     { World.initial 7 with xhr := ((World.initial 7).xhr._func_open getArgs).1 } 10 11
     [ScriptAction.worker failedRun, ScriptAction.worker failedRun,
      ScriptAction.worker failedRun, ScriptAction.worker failedRun, ScriptAction.poll]
     [ScriptAction.worker failedRun, ScriptAction.worker failedRun, ScriptAction.poll]
     (by decide) (by decide) (by decide)⟩

/-- C16 (as stated, refuted): after the completion callback for a failed
response that carries status code -1, the `status` property reads -1, not 0;
before the callback it read 0. -/
theorem failed_status_is_response_code :
    (EJBindingHttpRequest.new 7)._get_status = 0
      ∧ (failedResponse sampleRequest).succeed = false
      ∧ (failedResponse sampleRequest).responseCode = -1
      ∧ (((EJBindingHttpRequest.new 7).onHttpRequestCompleted
            (some (failedResponse sampleRequest))).1)._get_status = -1
      ∧ (∃ W, (World.exec 64 failedExchange (World.initial 7)).2 = some W
            ∧ W.xhr._get_status = -1) := by
  exact ⟨by decide, by decide, by decide, by decide, _, rfl, by decide⟩

/-- C16 (amended): after the completion callback for any response, failed ones
included, the `status` property reads the status code that response carries
(-1 when no code was obtained); it reads 0 only when that code is 0. -/
theorem status_after_completion (x : EJBindingHttpRequest) (r : EJHttpResponse) :
    ((x.onHttpRequestCompleted (some r)).1)._get_status = r.responseCode := by
  have hresp : (x.onHttpRequestCompleted (some r)).1.response = some r := by
    unfold EJBindingHttpRequest.onHttpRequestCompleted
    cases hs : r.succeed <;> simp [hs]
  unfold EJBindingHttpRequest._get_status EJBindingHttpRequest.getStatusCode
  rw [hresp]
  by_cases h : r.responseCode = 200
  · simp [h]
  · simp [h]

/-- C17 (the code at the failing input): a GET is answered with status 200 and
the three-byte body 65 0 66.  The response delivered has `succeed = true` and
that body; after the completion callback the object is in state DONE and its
status is 200, but the text it returns is the single byte 65: the copy made
with `sprintf("%s")` stops at the zero byte.  The run is with a 32-bit
`long`, where the worker gets through a successful transfer; the callback
itself does the same at every width. -/
theorem body_with_zero_byte_truncated :
    (∃ W r, (World.exec 32 [ScriptAction.callOpen getArgs, ScriptAction.callSend 10,
                            ScriptAction.worker zeroByteRun, ScriptAction.worker zeroByteRun,
                            ScriptAction.worker zeroByteRun, ScriptAction.poll]
              (World.initial 7)).2 = some W
      ∧ W.xhr.response = some r
      ∧ r.succeed = true
      ∧ r.responseData = [65, 0, 66]
      ∧ W.xhr._get_readyState = EJHttpRequestState.kEJHttpRequestStateDone
      ∧ W.xhr._get_status = 200
      ∧ W.xhr._get_responseText = some [65])
    ∧ ((EJBindingHttpRequest.new 7).onHttpRequestCompleted
          (some { request := sampleRequest, succeed := true, responseData := [65, 0, 66],
                  responseCode := 200, errorBuffer := "" })).1._get_responseText
        = some [65] := by
  exact ⟨⟨_, _, rfl, rfl, by decide, by decide, by decide, by decide, by decide⟩, by decide⟩

/-- C18 (as stated, refuted): `send` increments the counter on line 393 and
the poll reads it on line 409 and decrements it on line 428 with no mutex
held; the cleanup of the worker subtracts from it on line 160 and reads,
releases and resets the two queues on lines 160 to 173 after it has unlocked
the mutex of the pending queue.  The write of the counter by `send` and the
one by the cleanup, and the test of `s_requestQueue` by `send` and its reset
by the cleanup, are conflicting accesses by two threads that hold no common
mutex. -/
theorem counter_accessed_without_mutex :
    SyncOp.write Shared.s_asyncRequestCount Part.variable 393
        ∈ unguarded [] (EJHttpClient.send.ops true false)
      ∧ SyncOp.read Shared.s_asyncRequestCount Part.variable 409
        ∈ unguarded [] (EJHttpClient.dispatchResponseCallbacks.ops false false)
      ∧ SyncOp.write Shared.s_asyncRequestCount Part.variable 428
        ∈ unguarded [] (EJHttpClient.dispatchResponseCallbacks.ops false false)
      ∧ unguarded (workerHeld false) networkThread.cleanupOps
          = [SyncOp.read Shared.s_requestQueue Part.content 160,
             SyncOp.read Shared.s_asyncRequestCount Part.variable 160,
             SyncOp.write Shared.s_asyncRequestCount Part.variable 160,
             SyncOp.read Shared.s_requestQueue Part.variable 162,
             SyncOp.write Shared.s_requestQueue Part.content 170,
             SyncOp.write Shared.s_requestQueue Part.variable 171,
             SyncOp.write Shared.s_responseQueue Part.content 172,
             SyncOp.write Shared.s_responseQueue Part.variable 173]
      ∧ unguarded (workerHeld true) networkThread.cleanupOps
          = [SyncOp.read Shared.s_requestQueue Part.content 160,
             SyncOp.read Shared.s_requestQueue Part.variable 162,
             SyncOp.write Shared.s_requestQueue Part.content 170,
             SyncOp.write Shared.s_requestQueue Part.variable 171,
             SyncOp.write Shared.s_responseQueue Part.content 172,
             SyncOp.write Shared.s_responseQueue Part.variable 173]
      ∧ races (SyncOp.write Shared.s_asyncRequestCount Part.variable 393, [])
          (SyncOp.write Shared.s_asyncRequestCount Part.variable 160, workerHeld true) = true
      ∧ (SyncOp.write Shared.s_asyncRequestCount Part.variable 393, [])
          ∈ heldAt [] (EJHttpClient.send.ops true false)
      ∧ (SyncOp.write Shared.s_asyncRequestCount Part.variable 160, workerHeld true)
          ∈ heldAt (workerHeld true) networkThread.cleanupOps
      ∧ races (SyncOp.read Shared.s_requestQueue Part.variable 355, [])
          (SyncOp.write Shared.s_requestQueue Part.variable 171, workerHeld true) = true
      ∧ (SyncOp.read Shared.s_requestQueue Part.variable 355, [])
          ∈ heldAt [] (EJHttpClient.send.ops true false)
      ∧ (SyncOp.write Shared.s_requestQueue Part.variable 171, workerHeld true)
          ∈ heldAt (workerHeld true) networkThread.cleanupOps := by
  refine ⟨by decide, by decide, by decide, by decide, by decide, by decide, by decide,
    by decide, by decide, by decide, by decide⟩

/-- C18 (amended): on every path through `send`, the poll and the loop body of
the worker, the reads and writes made with no guarding mutex held are exactly
these: in `send` the test of `s_requestQueue` on line 355, the creation of
the two queues when that pointer is `NULL`, and the increment of the counter
on line 393; in the poll the test of the counter on line 409 and its
decrement on line 428; in the loop body of the worker none.  Every access to
the content of a queue on these paths, the creation apart, holds the mutex of
that queue, and no access of `send` or of the poll on an initialised client
conflicts with an access of the loop body of the worker while the two
threads hold no common mutex. -/
theorem queue_content_guarded_counter_not
    (initialised requestNull counterZero queueEmpty workerQueueEmpty hasWaited : Bool) :
    unguarded [] (EJHttpClient.send.ops initialised requestNull)
        = EJHttpClient.lazyInitThreadSemphore.ops initialised
            ++ (if requestNull then []
                else [SyncOp.read Shared.s_asyncRequestCount Part.variable 393,
                      SyncOp.write Shared.s_asyncRequestCount Part.variable 393])
      ∧ unguarded [] (EJHttpClient.dispatchResponseCallbacks.ops counterZero queueEmpty)
        = SyncOp.read Shared.s_asyncRequestCount Part.variable 409
            :: (if counterZero || queueEmpty then []
                else [SyncOp.read Shared.s_asyncRequestCount Part.variable 428,
                      SyncOp.write Shared.s_asyncRequestCount Part.variable 428])
      ∧ unguarded (workerHeld hasWaited) (networkThread.loopOps workerQueueEmpty) = []
      ∧ (∀ a ∈ heldAt [] (EJHttpClient.send.ops true requestNull),
          ∀ b ∈ heldAt (workerHeld hasWaited) (networkThread.loopOps workerQueueEmpty),
            races a b = false)
      ∧ (∀ a ∈ heldAt [] (EJHttpClient.dispatchResponseCallbacks.ops counterZero queueEmpty),
          ∀ b ∈ heldAt (workerHeld hasWaited) (networkThread.loopOps workerQueueEmpty),
            races a b = false) := by
  refine ⟨?_, ?_, ?_, ?_, ?_⟩
  · cases initialised <;> cases requestNull <;> decide
  · cases counterZero <;> cases queueEmpty <;> decide
  · cases hasWaited <;> cases workerQueueEmpty <;> decide
  · cases requestNull <;> cases hasWaited <;> cases workerQueueEmpty <;> decide
  · cases counterZero <;> cases queueEmpty <;> cases hasWaited <;> cases workerQueueEmpty <;>
      decide

/-- C19 (as stated, refuted): with a 32-bit `unsigned long`, 2^32 submissions
from a freshly initialised client, with no worker step, poll or shutdown,
end with all 2^32 requests on the pending queue, none delivered, and the
counter at 0. -/
theorem counter_zero_with_requests_pending :
    ∃ s, (exec 32 (List.replicate 4294967296 (Action.send (some sampleRequest)))
            ClientState.fresh).2 = some s
      ∧ s.s_asyncRequestCount = 0
      ∧ s.pending.length = 4294967296
      ∧ s.completed = []
      ∧ s.s_networkThread = WorkerPc.loopHead := by
  obtain ⟨s1, h1, h2, h3, h4, h5⟩ :=
    exec_sends 32 sampleRequest 4294967296 ClientState.fresh [] rfl (by decide)
  refine ⟨s1, h1, ?_, ?_, ?_, ?_⟩
  · rw [h5]
    decide
  · rw [ClientState.pending, h2, Option.getD_some, List.nil_append, List.length_replicate]
  · rw [ClientState.completed, h3]
    rfl
  · rw [h4]
    rfl

/-- C19 (amended): in every state reached from a freshly initialised client by
`send`, worker and poll steps, with no shutdown, the counter equals the
number of pending requests plus the number of queued responses plus one
while a dequeued request is being transferred, taken modulo `2 ^ w`.  While
fewer than `2 ^ w` requests are outstanding the counter is that number
exactly, and it is zero exactly when every submitted request has been
delivered.  Such an execution reaches a state (no step faults) when `long`
has at most 32 bits, or when no worker step is given a transfer that gets as
far as `curl_easy_getinfo`. -/
theorem counter_tracks_outstanding (w : Nat) (acts : List Action)
    (hno : ∀ a ∈ acts, a ≠ Action.shutdown) :
    (∀ s, (exec w acts ClientState.fresh).2 = some s →
      s.s_asyncRequestCount
          = (s.pending.length + s.completed.length + s.inFlight) % 2 ^ w
      ∧ (s.pending.length + s.completed.length + s.inFlight < 2 ^ w →
          s.s_asyncRequestCount = s.pending.length + s.completed.length + s.inFlight
          ∧ (s.s_asyncRequestCount = 0
              ↔ s.pending = [] ∧ s.completed = [] ∧ s.inFlight = 0)))
    ∧ ((w ≤ 32 ∨ ∀ run, Action.worker run ∈ acts →
          run.setupOk = false ∨ run.performOk = false) →
        ∃ s, (exec w acts ClientState.fresh).2 = some s) := by
  refine ⟨?_, fun hsafe => exec_total w acts ClientState.fresh (fresh_counted w) hno hsafe⟩
  intro s h1
  obtain ⟨_, _, _, _, hc⟩ := exec_counted w acts ClientState.fresh s (fresh_counted w) hno h1
  refine ⟨hc, ?_⟩
  intro hlt
  have heq : s.s_asyncRequestCount = s.pending.length + s.completed.length + s.inFlight := by
    rw [hc]
    exact Nat.mod_eq_of_lt hlt
  refine ⟨heq, ?_⟩
  rw [heq]
  constructor
  · intro h0
    refine ⟨List.length_eq_zero.mp (by omega), List.length_eq_zero.mp (by omega), by omega⟩
  · rintro ⟨hp, hcq, hi⟩
    rw [hp, hcq, hi]
    rfl

/-- Witness of `counter_tracks_outstanding`: two submissions; the first request
is dequeued, its transfer fails and its response is queued; the second is
still pending.  The counter is 2. -/
theorem counter_tracks_outstanding_witness :
    (∃ s, (exec 64 [Action.send (some sampleRequest), Action.send (some bareRequest),
                    Action.worker okRun, Action.worker okRun, Action.poll,
                    Action.worker failedRun] ClientState.fresh).2 = some s
        ∧ s.s_asyncRequestCount = 2 ∧ s.pending.length = 1 ∧ s.completed.length = 1)
    ∧ (∀ s, (exec 64 [Action.send (some sampleRequest), Action.send (some bareRequest),
                      Action.worker okRun, Action.worker okRun, Action.poll,
                      Action.worker failedRun] ClientState.fresh).2 = some s →
        s.s_asyncRequestCount
            = (s.pending.length + s.completed.length + s.inFlight) % 2 ^ 64
        ∧ (s.pending.length + s.completed.length + s.inFlight < 2 ^ 64 →
            s.s_asyncRequestCount = s.pending.length + s.completed.length + s.inFlight
            ∧ (s.s_asyncRequestCount = 0
                ↔ s.pending = [] ∧ s.completed = [] ∧ s.inFlight = 0))) :=
  ⟨⟨_, rfl, by decide, by decide, by decide⟩,
   (counter_tracks_outstanding 64 _ (by decide)).1⟩

end Ejecta
